import Mathlib

/-!
# vaccinations-graph: run-to-run diffing and graph construction

A shallow embedding of `main.go`, `pkg/api.go`, `pkg/arango.go`, `pkg/utils.go`
and `pkg/models.go`.

Modelling conventions.

* A Go `map[string]T` is an association list `GoMap T`.  The order in which
  `range` visits a map is unspecified in Go: a map that is an input is visited in
  list order and the theorems quantify over every list; a map built inside a
  function is visited in the order chosen by an explicit `range` argument.
* A Go `error` is `Option String` (`none` is `nil`).  A run-time panic (failed
  type assertion) is the outer `Option`: `none` means the program panicked.
* `float64` values are finite binary floating-point numbers `m * 2^e`; the
  conversion from `int64` and the subtraction round to nearest, ties to even, at
  53 significant bits.
* Calls to the ArangoDB driver are recorded in a log; what the store answers is
  given by a `Database` record and may depend on the calls made so far.
* Logging has no effect on results and is left out.
-/

namespace VaccinationsGraph

/-! ## float64 -/

/-- A finite float64 value `m * 2^e`.  The representation is not unique; `Float64.eq`
compares values.  JSON decoding and `int64` conversion only yield finite values, and the
difference of a finite float64 and a converted `int64` never overflows (an `int64` is
below half a unit in the last place of the largest finite value), so infinities and NaN
do not occur in this program. -/
structure Float64 where
  m : Int
  e : Int
deriving DecidableEq, Repr

/-- Number of binary digits of `n`, computed with `fuel` halvings. -/
def bitLengthAux : Nat → Nat → Nat
  | 0, _ => 0
  | fuel + 1, n => if n = 0 then 0 else bitLengthAux fuel (n / 2) + 1

/-- Number of binary digits of `n` (`0` for `0`). -/
def bitLength (n : Nat) : Nat := bitLengthAux n n

/-- Round `M * 2^E` to nearest, ties to even, keeping 53 significant bits. -/
def roundNearestEven (M : Int) (E : Int) : Float64 :=
  let a := M.natAbs
  if a < 2 ^ 53 then ⟨M, E⟩
  else
    let k := bitLength a - 53
    let q := a / 2 ^ k
    let r := a % 2 ^ k
    let half := 2 ^ (k - 1)
    let q1 := if half < r ∨ (r = half ∧ q % 2 = 1) then q + 1 else q
    ⟨M.sign * (q1 : Int), E + (k : Int)⟩

/-- Go conversion `float64(x)` of an `int64`. -/
def Float64.ofInt64 (x : Int) : Float64 := roundNearestEven x 0

/-- Go `a == b` on float64: equality of values. -/
def Float64.eq (a b : Float64) : Bool :=
  let E := min a.e b.e
  a.m * 2 ^ (a.e - E).toNat == b.m * 2 ^ (b.e - E).toNat

/-- Go `a - b` on float64: the exact difference, rounded. -/
def Float64.sub (a b : Float64) : Float64 :=
  let E := min a.e b.e
  roundNearestEven (a.m * 2 ^ (a.e - E).toNat - b.m * 2 ^ (b.e - E).toNat) E

/-- The float64 with the exact integer value `n` (meaningful when `n` has at most 53
significant bits); used to state which number a float64 holds. -/
def Float64.exact (n : Int) : Float64 := ⟨n, 0⟩

/-- The rational number a float64 holds. -/
def Float64.toRat (f : Float64) : ℚ := (f.m : ℚ) * (2 : ℚ) ^ f.e

/-- The pairs `(m, e)` that are binary64 numbers: a significand below `2^53` and an exponent
between that of the subnormal numbers and that of the largest finite number. -/
def Float64.Valid (f : Float64) : Prop := f.m.natAbs < 2 ^ 53 ∧ -1074 ≤ f.e ∧ f.e ≤ 971

instance (f : Float64) : Decidable f.Valid := by
  unfold Float64.Valid
  infer_instance

/-- The rational `q` is the value of some float64. -/
def Float64.Representable (q : ℚ) : Prop := ∃ g : Float64, g.Valid ∧ g.toRat = q

/-! ## Go values -/

/-- A calendar date, the only kind of `time.Time` this program builds
(`time.Parse("2006-01-02", _)` yields midnight UTC of the date). -/
structure Time where
  year : Nat
  month : Nat
  day : Nat
deriving DecidableEq, Repr

/-- What `encoding/json` decodes into an `interface{}`.  An array or object member is
carried as its JSON text: no code of this repository looks inside one except through
`json.Unmarshal`. -/
inductive JSONValue where
  | null
  | bool (b : Bool)
  | number (f : Float64)
  | string (s : String)
  | composite (json : String)
deriving DecidableEq, Repr

/-- An `interface{}` value held by a payload built in `compareToPrevRunNodes`. -/
inductive GoValue where
  | nil
  | bool (b : Bool)
  | float64 (f : Float64)
  | string (s : String)
  | composite (json : String)
  | int64 (n : Int)
  | time (t : Time)
deriving DecidableEq, Repr

/-- A JSON-decoded value seen as an `interface{}`. -/
def JSONValue.toGo : JSONValue → GoValue
  | .null => .nil
  | .bool b => .bool b
  | .number f => .float64 f
  | .string s => .string s
  | .composite j => .composite j

/-- Go `map[string]T`. -/
abbrev GoMap (α : Type) := List (String × α)

/-- Go `v, ok := m[k]`. -/
def GoMap.get? {α : Type} (m : GoMap α) (k : String) : Option α :=
  match m with
  | [] => none
  | (k1, v) :: rest => if k1 = k then some v else GoMap.get? rest k

/-- Go `m[k] = v`. -/
def GoMap.set {α : Type} (m : GoMap α) (k : String) (v : α) : GoMap α :=
  match m with
  | [] => [(k, v)]
  | (k1, v1) :: rest => if k1 = k then (k, v) :: rest else (k1, v1) :: GoMap.set rest k v

/-- Go `delete(m, k)`. -/
def GoMap.delete {α : Type} (m : GoMap α) (k : String) : GoMap α :=
  m.filter (fun kv => kv.1 ≠ k)

/-- The keys of a map. -/
def GoMap.keys {α : Type} (m : GoMap α) : List String := m.map Prod.fst

/-- A document decoded from JSON: `map[string]interface{}` read from the store or the feed. -/
abbrev Document := GoMap JSONValue

/-- A payload built by this program: `map[string]interface{}`. -/
abbrev Node := GoMap GoValue

/-- Go `m[k]` on a `map[string]interface{}` holding decoded JSON: `nil` for a missing key. -/
def Document.index (d : Document) (k : String) : JSONValue := (GoMap.get? d k).getD .null

/-! ## pkg/models.go -/

/-- One element of `VaccinationStatusEntity.Data`. -/
structure Observation where
  Date : String
  TotalPeopleVaccinated : Int
deriving DecidableEq, Repr

/-- `VaccinationStatusEntity`. -/
structure VaccinationStatusEntity where
  CountryCode : String
  Data : List Observation
deriving DecidableEq, Repr

/-- `VaccinationStatus`; `TotalPeopleVaccinated` is an `int64`. -/
structure VaccinationStatus where
  CountryCode : String
  UpdatedAt : Time
  TotalPeopleVaccinated : Int
deriving DecidableEq, Repr

/-- `ApiMetadata`. -/
structure ApiMetadata where
  URL : String
  CountryCodeKey : String
  CountriesFilter : List String
deriving DecidableEq, Repr

/-! ## main.go: compareToPrevRunNodes -/

/-- `structs.Map(data)` for a `VaccinationStatus`: one member per exported field. -/
def structsMap (data : VaccinationStatus) : Node :=
  [("CountryCode", .string data.CountryCode),
   ("UpdatedAt", .time data.UpdatedAt),
   ("TotalPeopleVaccinated", .int64 data.TotalPeopleVaccinated)]

/-- `json.Marshal` followed by `json.Unmarshal` into a `map[string]interface{}`, applied to
a document that was itself decoded from JSON: both steps succeed and give the document back,
so the two error returns of `compareToPrevRunNodes` (lines 104-111) are not reachable. -/
def jsonRoundTrip (d : Document) : Document := d

/-- The `vaccinationNodes` value of `compareToPrevRunNodes`: the slices under the keys
`"new"`, `"old"` and `"changed"`. -/
structure Buckets where
  new : List Node
  old : List GoValue
  changed : List Node
deriving DecidableEq, Repr

/-- The payload of the `else` branch at lines 133-136. -/
def newNode (currentRun : String) (data : VaccinationStatus) : Node :=
  let node := structsMap data
  let node := GoMap.set node "date" (.string currentRun)
  let node := GoMap.set node "_key" (.string (currentRun ++ "-" ++ data.CountryCode))
  GoMap.set node "collection" (.string "Vaccinations")

/-- The payload of lines 120-125. -/
def changedNode (currentRun : String) (data : VaccinationStatus) (prevNode : Document)
    (prevNodeVaccinations : Float64) : Node :=
  let node := newNode currentRun data
  let node := GoMap.set node "diff"
    (.float64 (Float64.sub (Float64.ofInt64 data.TotalPeopleVaccinated) prevNodeVaccinations))
  GoMap.set node "prevAssetId" (Document.index prevNode "_id").toGo

/-- One iteration of the loop at lines 100-141.  `none` is the panic of the type assertion
`prevNode["TotalPeopleVaccinated"].(float64)`. -/
def compareStep (currentRun : String) (prevRunNodes : GoMap Document)
    (vaccinationNodes : Buckets) (entry : String × VaccinationStatus) : Option Buckets :=
  let country := entry.1
  let data := entry.2
  match GoMap.get? prevRunNodes country with
  | some prevNodeObj =>
    let prevNode := jsonRoundTrip prevNodeObj
    match Document.index prevNode "TotalPeopleVaccinated" with
    | .number prevNodeVaccinations =>
      if Float64.eq (Float64.ofInt64 data.TotalPeopleVaccinated) prevNodeVaccinations then
        some { vaccinationNodes with
          old := vaccinationNodes.old ++ [(Document.index prevNode "_id").toGo] }
      else
        some { vaccinationNodes with
          changed := vaccinationNodes.changed ++
            [changedNode currentRun data prevNode prevNodeVaccinations] }
    | _ => none
  | none =>
    some { vaccinationNodes with new := vaccinationNodes.new ++ [newNode currentRun data] }

/-- The loop of `compareToPrevRunNodes` from a given accumulator. -/
def compareLoop (currentRun : String) (prevRunNodes : GoMap Document) :
    Buckets → List (String × VaccinationStatus) → Option Buckets
  | acc, [] => some acc
  | acc, entry :: rest =>
    match compareStep currentRun prevRunNodes acc entry with
    | some acc1 => compareLoop currentRun prevRunNodes acc1 rest
    | none => none

/-- `compareToPrevRunNodes`.  The Go function returns `(vaccinationNodes, error)`; the error
is `nil` on every reachable return (see `jsonRoundTrip`). -/
def compareToPrevRunNodes (vaccinationsData : GoMap VaccinationStatus) (currentRun : String)
    (prevRunNodes : GoMap Document) : Option (Buckets × Option String) :=
  match compareLoop currentRun prevRunNodes ⟨[], [], []⟩ vaccinationsData with
  | some vaccinationNodes => some (vaccinationNodes, none)
  | none => none

/-- Every stored fact that `compareToPrevRunNodes` consults for the mapping holds a number
under `TotalPeopleVaccinated`, as the assertion `.(float64)` at line 113 requires. -/
def StoredFactsNumeric (prevRunNodes : GoMap Document) (vaccinationsData : GoMap VaccinationStatus) :
    Prop :=
  ∀ entry ∈ vaccinationsData, ∀ prevNode, GoMap.get? prevRunNodes entry.1 = some prevNode →
    ∃ f, Document.index prevNode "TotalPeopleVaccinated" = .number f

/-- Concatenation of two bucket triples, bucket by bucket. -/
def Buckets.append (a b : Buckets) : Buckets :=
  ⟨a.new ++ b.new, a.old ++ b.old, a.changed ++ b.changed⟩

/-! ## pkg/utils.go -/

/-- The loop of `GroupByKey` over the remaining entities.  `none` is the panic of
`keyVal.(string)`; on a missing key the Go function returns `(nil, error)`. -/
def GroupByKeyLoop (key : String) :
    GoMap Document → List Document → Option (GoMap Document × Option String)
  | result, [] => some (result, none)
  | result, entity :: rest =>
    match GoMap.get? entity key with
    | some keyVal =>
      match keyVal with
      | .string s => GroupByKeyLoop key (GoMap.set result s entity) rest
      | _ => none
    | none => some ([], some ("failed to find " ++ key ++ " key"))

/-- `GroupByKey`. -/
def GroupByKey (entities : List Document) (key : String) :
    Option (GoMap Document × Option String) :=
  GroupByKeyLoop key [] entities

/-- The loop of `IsStringInlist`. -/
def IsStringInlistLoop (val : String) : List String → Bool
  | [] => false
  | item :: rest => if item = val then true else IsStringInlistLoop val rest

/-- `IsStringInlist`. -/
def IsStringInlist (items : List String) (val : String) : Bool :=
  if items.length = 0 then false else IsStringInlistLoop val items

/-! ## pkg/api.go -/

/-- Value of an ASCII digit. -/
def digitValue (c : Char) : Nat := c.toNat - 48

/-- Days of a month (`time.daysIn`). -/
def daysIn (month year : Nat) : Nat :=
  if month = 2 then
    if year % 4 = 0 ∧ (year % 100 ≠ 0 ∨ year % 400 = 0) then 29 else 28
  else if month = 4 ∨ month = 6 ∨ month = 9 ∨ month = 11 then 30
  else 31

/-- `time.Parse("2006-01-02", value)`: four digits, `-`, two digits, `-`, two digits and
nothing else, with the month in `1..12` and the day within the month. -/
def timeParse (value : String) : Except String Time :=
  match value.data with
  | [y1, y2, y3, y4, '-', m1, m2, '-', d1, d2] =>
    if y1.isDigit ∧ y2.isDigit ∧ y3.isDigit ∧ y4.isDigit ∧ m1.isDigit ∧ m2.isDigit ∧
        d1.isDigit ∧ d2.isDigit then
      let year := digitValue y1 * 1000 + digitValue y2 * 100 + digitValue y3 * 10 + digitValue y4
      let month := digitValue m1 * 10 + digitValue m2
      let day := digitValue d1 * 10 + digitValue d2
      if month = 0 ∨ 12 < month then .error "month out of range"
      else if day < 1 ∨ daysIn month year < day then .error "day out of range"
      else .ok ⟨year, month, day⟩
    else .error "cannot parse"
  | _ => .error "cannot parse"

/-- `t.Before(u) || t.Equal(u)` on dates. -/
def Time.le (t u : Time) : Bool :=
  decide (t.year < u.year ∨ (t.year = u.year ∧ (t.month < u.month ∨
    (t.month = u.month ∧ t.day ≤ u.day))))

/-- The loop at lines 30-52 of `GetVaccinationStatus` over the entries `range` still has to
visit.  `unmarshal` is `json.Marshal` followed by `json.Unmarshal` into a
`VaccinationStatusEntity` (library behaviour, a parameter of the model). -/
def statusLoop (api : ApiMetadata) (unmarshal : Document → Except String VaccinationStatusEntity) :
    GoMap VaccinationStatus → List (String × Document) → GoMap VaccinationStatus × Option String
  | vaccinationsStatus, [] => (vaccinationsStatus, none)
  | vaccinationsStatus, (countryCode, entity) :: rest =>
    if api.CountriesFilter.length = 0 ∨ IsStringInlist api.CountriesFilter countryCode = true then
      match unmarshal entity with
      | .error err => ([], some err)
      | .ok status =>
        match status.Data.getLast? with
        | none => ([], some ("no data available for country: " ++ countryCode))
        | some lastStatus =>
          match timeParse lastStatus.Date with
          | .error err => ([], some err)
          | .ok lastStatusDate =>
            statusLoop api unmarshal
              (GoMap.set vaccinationsStatus countryCode
                ⟨countryCode, lastStatusDate, lastStatus.TotalPeopleVaccinated⟩) rest
    else statusLoop api unmarshal vaccinationsStatus rest

/-- The country passes the filter at line 31 of `GetVaccinationStatus`. -/
def Included (api : ApiMetadata) (countryCode : String) : Prop :=
  api.CountriesFilter.length = 0 ∨ IsStringInlist api.CountriesFilter countryCode = true

/-- The history is in chronological order: every date parses and no observation is dated
before an earlier element of the list. -/
def Chronological (data : List Observation) : Prop :=
  data.Pairwise (fun a b => ∃ ta tb, timeParse a.Date = .ok ta ∧ timeParse b.Date = .ok tb ∧
    Time.le ta tb = true)

/-- `GetVaccinationStatus`.  `response` is the outcome of `http.Get` and of decoding the
body; `range` gives the order in which the grouped map is visited.  `none` is a panic. -/
def GetVaccinationStatus (api : ApiMetadata) (response : Except String (List Document))
    (unmarshal : Document → Except String VaccinationStatusEntity)
    (range : GoMap Document → GoMap Document) :
    Option (GoMap VaccinationStatus × Option String) :=
  match response with
  | .error err => some ([], some err)
  | .ok globalVaccinationsStatus =>
    match GroupByKey globalVaccinationsStatus api.CountryCodeKey with
    | none => none
    | some (_, some err) => some ([], some err)
    | some (vaccinationsStatusMap, none) =>
      some (statusLoop api unmarshal [] (range vaccinationsStatusMap))

/-! ## pkg/arango.go -/

/-- `VaccinationEdge`. -/
structure VaccinationEdge where
  From : String
  To : String
  Collection : String
deriving DecidableEq, Repr

/-- `driver.DocumentMeta`. -/
structure DocumentMeta where
  Key : String
  ID : String
  Rev : String
deriving DecidableEq, Repr

/-- A `driver.Cursor`: what successive `ReadDocument` calls deliver (after the last element
`ReadDocument` reports that there are no more documents) and what `Close` returns. -/
structure Cursor where
  reads : List (Except String Document)
  closeError : Option String

/-- A call to the ArangoDB driver. -/
inductive DbCall where
  | query (aql : String) (bindVars : GoMap GoValue)
  | collection (name : String)
  | createDocuments (collection : String) (documents : List Node)
  | importDocuments (collection : String) (edges : List VaccinationEdge)
deriving DecidableEq, Repr

/-- A `driver.Database`: what the store answers to a call, given the driver calls made so far
(`unixNow` is the clock read by `CreateNewRunNode`). -/
structure Database where
  unixNow : List DbCall → Int
  query : List DbCall → String → GoMap GoValue → Except String Cursor
  collection : List DbCall → String → Option String
  createDocuments : List DbCall → String → List Node → List DocumentMeta × Option String
  importDocuments : List DbCall → String → List VaccinationEdge → Option String

/-- `ArangoDB`. -/
structure ArangoDB where
  db : Database

/-- The AQL text of `GetVaccinationNodes`. -/
def vaccinationNodesQuery : String :=
  "FOR v IN 1..1 ANY @runDate GRAPH 'runs-graph' FILTER v.collection == 'Vaccinations' RETURN v"

/-- The AQL text of `CreateNewRunNode`. -/
def runInsertQuery : String :=
  "INSERT \x7b '_key': @key , createdAt: @createdAt, collection: 'Runs' \x7d INTO Runs"

/-- The AQL text of `CreateEdgeBetweenRuns`. -/
def runEdgeInsertQuery : String :=
  "INSERT \x7b _from: @from, _to: @to, collection: 'VaccinationsEdges' \x7d INTO VaccinationsEdges"

/-- Go `strings.HasPrefix`. -/
def stringsHasPrefix (s p : String) : Bool := p.data.isPrefixOf s.data

/-- The run vertex `createEdgeBetweenRunAndNodes` uses for `date` (lines 36-38). -/
def runVertex (date : String) : String :=
  if stringsHasPrefix date "Runs/" then date else "Runs/" ++ date

/-- The loop at lines 42-48: one edge per id; `none` is the panic of `id.(string)`. -/
def runEdges (date : String) : List GoValue → Option (List VaccinationEdge)
  | [] => some []
  | id :: rest =>
    match id with
    | .string s =>
      match runEdges date rest with
      | some edges => some (⟨date, s, "VaccinationsEdges"⟩ :: edges)
      | none => none
    | _ => none

/-- `createEdgeBetweenRunAndNodes`. -/
def createEdgeBetweenRunAndNodes (graph : ArangoDB) (date : String) (ids : List GoValue)
    (log : List DbCall) : Option (Option String × List DbCall) :=
  let date := runVertex date
  match runEdges date ids with
  | none => none
  | some edges =>
    let log1 := log ++ [DbCall.collection "VaccinationsEdges"]
    match graph.db.collection log "VaccinationsEdges" with
    | some err => some (some err, log1)
    | none =>
      let log2 := log1 ++ [DbCall.importDocuments "VaccinationsEdges" edges]
      match graph.db.importDocuments log1 "VaccinationsEdges" edges with
      | some err => some (some err, log2)
      | none => some (none, log2)

/-- The loop at lines 80-86: the edge at position `i` runs from `prevIds[i]` to `newIds[i]`;
`none` is a panic (index out of range or a failed `.(string)`). -/
def factEdges : List GoValue → List GoValue → Option (List VaccinationEdge)
  | _, [] => some []
  | [], _ :: _ => none
  | prevId :: prevRest, newId :: newRest =>
    match prevId, newId with
    | .string p, .string n =>
      match factEdges prevRest newRest with
      | some edges => some (⟨p, n, "VaccinationsEdges"⟩ :: edges)
      | none => none
    | _, _ => none

/-- `createEdgeBetweenOldAndNewNodes`. -/
def createEdgeBetweenOldAndNewNodes (graph : ArangoDB) (prevIds newIds : List GoValue)
    (log : List DbCall) : Option (Option String × List DbCall) :=
  match factEdges prevIds newIds with
  | none => none
  | some edges =>
    let log1 := log ++ [DbCall.collection "VaccinationsEdges"]
    match graph.db.collection log "VaccinationsEdges" with
    | some err => some (some err, log1)
    | none =>
      let log2 := log1 ++ [DbCall.importDocuments "VaccinationsEdges" edges]
      match graph.db.importDocuments log1 "VaccinationsEdges" edges with
      | some err => some (some err, log2)
      | none => some (none, log2)

/-- `createNewVaccinationsDocuments`. -/
def createNewVaccinationsDocuments (graph : ArangoDB) (nodes : List Node) (log : List DbCall) :
    (List DocumentMeta × Option String) × List DbCall :=
  let log1 := log ++ [DbCall.collection "Vaccinations"]
  match graph.db.collection log "Vaccinations" with
  | some err => (([], some ("failed getting 'Assets' collection: " ++ err)), log1)
  | none =>
    (graph.db.createDocuments log1 "Vaccinations" nodes,
      log1 ++ [DbCall.createDocuments "Vaccinations" nodes])

/-- `CreateNewRunNode`. -/
def CreateNewRunNode (graph : ArangoDB) (date : String) (log : List DbCall) :
    Option String × List DbCall :=
  let aql := runInsertQuery
  let bindVars : GoMap GoValue := [("key", .string date), ("createdAt", .int64 (graph.db.unixNow log))]
  match graph.db.query log aql bindVars with
  | .error err => (some err, log ++ [DbCall.query aql bindVars])
  | .ok cursor => (cursor.closeError, log ++ [DbCall.query aql bindVars])

/-- `CreateEdgeBetweenRuns`. -/
def CreateEdgeBetweenRuns (graph : ArangoDB) (previousDrift currentDrift : String)
    (log : List DbCall) : Option String × List DbCall :=
  let aql := runEdgeInsertQuery
  let bindVars : GoMap GoValue :=
    [("from", .string ("Runs/" ++ previousDrift)), ("to", .string ("Runs/" ++ currentDrift))]
  match graph.db.query log aql bindVars with
  | .error err => (some err, log ++ [DbCall.query aql bindVars])
  | .ok cursor => (cursor.closeError, log ++ [DbCall.query aql bindVars])

/-- The loop at lines 227-237 of `GetVaccinationNodes`. -/
def readDocuments : List Document → List (Except String Document) → List Document × Option String
  | vaccinationsNodes, [] => (vaccinationsNodes, none)
  | vaccinationsNodes, .error err :: _ =>
    (vaccinationsNodes, some ("failed reading document: " ++ err))
  | vaccinationsNodes, .ok node :: rest => readDocuments (vaccinationsNodes ++ [node]) rest

/-- `GetVaccinationNodes`; the error of the deferred `cursor.Close()` is dropped. -/
def GetVaccinationNodes (graph : ArangoDB) (date : String) (log : List DbCall) :
    (List Document × Option String) × List DbCall :=
  let aql := vaccinationNodesQuery
  let bindVars : GoMap GoValue := [("runDate", .string ("Runs/" ++ date))]
  match graph.db.query log aql bindVars with
  | .error err => (([], some ("failed querying database: " ++ err)), log ++ [DbCall.query aql bindVars])
  | .ok cursor => (readDocuments [] cursor.reads, log ++ [DbCall.query aql bindVars])

/-- `HandleNewEdges`. -/
def HandleNewEdges (graph : ArangoDB) (date : String) (ids : List GoValue) (log : List DbCall) :
    Option (Option String × List DbCall) :=
  match createEdgeBetweenRunAndNodes graph date ids log with
  | none => none
  | some (some err, log1) => some (some err, log1)
  | some (none, log1) => some (none, log1)

/-- `HandleNewCountries`. -/
def HandleNewCountries (graph : ArangoDB) (date : String) (nodes : List Node) (log : List DbCall) :
    Option (Option String × List DbCall) :=
  match createNewVaccinationsDocuments graph nodes log with
  | ((_, some err), log1) =>
    some (some ("failed creating vaccinations documents: " ++ err), log1)
  | ((docs, none), log1) =>
    let ids := docs.map (fun node => GoValue.string node.ID)
    HandleNewEdges graph date ids log1

/-- The loop at lines 272-279 of `HandleChangedCountries`; `none` is the panic of
`nodeMap["_key"].(string)`. -/
def splitChangedNodes : GoMap GoValue → List Node → List Node → Option (GoMap GoValue × List Node)
  | newPrevMap, nodes, [] => some (newPrevMap, nodes)
  | newPrevMap, nodes, nodeMap :: rest =>
    match GoMap.get? nodeMap "prevAssetId" with
    | some prevId =>
      let nodeMap := GoMap.delete nodeMap "prevAssetId"
      match GoMap.get? nodeMap "_key" with
      | some (.string key) =>
        splitChangedNodes (GoMap.set newPrevMap key prevId) (nodes ++ [nodeMap]) rest
      | _ => none
    | none => splitChangedNodes newPrevMap nodes rest

/-- The side table `newPrevMap` once the loop has stored the predecessor `prevIds[i]` under
`keys[i]` for every position `i`, in order. -/
def prevMapOf (newPrevMap : GoMap GoValue) (keys prevIds : List String) : GoMap GoValue :=
  (List.zip keys prevIds).foldl (fun m kp => GoMap.set m kp.1 (GoValue.string kp.2)) newPrevMap

/-- `HandleChangedCountries`. -/
def HandleChangedCountries (graph : ArangoDB) (date : String) (changedNodes : List Node)
    (log : List DbCall) : Option (Option String × List DbCall) :=
  match splitChangedNodes [] [] changedNodes with
  | none => none
  | some (newPrevMap, nodes) =>
    match createNewVaccinationsDocuments graph nodes log with
    | ((_, some err), log1) => some (some err, log1)
    | ((docs, none), log1) =>
      let newIds := docs.map (fun node => GoValue.string node.ID)
      let prevIds := docs.map (fun node => (GoMap.get? newPrevMap node.Key).getD GoValue.nil)
      match HandleNewEdges graph date newIds log1 with
      | none => none
      | some (some err, log2) => some (some err, log2)
      | some (none, log2) =>
        match createEdgeBetweenOldAndNewNodes graph prevIds newIds log2 with
        | none => none
        | some (some err, log3) => some (some err, log3)
        | some (none, log3) => some (none, log3)

/-- The `_key` member of a document handed to `CreateDocuments` (empty when there is none). -/
def documentKey (node : Node) : String :=
  match GoMap.get? node "_key" with
  | some (.string key) => key
  | _ => ""

/-! ## main.go: handleNewRun and saveVaccinationsData -/

/-- `handleNewRun`: the returned pair is `(prevRunNodes, err)`. -/
def handleNewRun (graph : ArangoDB) (currentRun prevRunId : String) (log : List DbCall) :
    Option ((GoMap Document × Option String) × List DbCall) :=
  match GetVaccinationNodes graph prevRunId log with
  | ((prevRun, err), log1) =>
    let hasPrevRun := if err ≠ none ∨ prevRun.length = 0 then false else true
    match GroupByKey prevRun "CountryCode" with
    | none => none
    | some (prevRunNodes, some _) =>
      some ((prevRunNodes, some "Unknown format of previous run nodes"), log1)
    | some (prevRunNodes, none) =>
      match CreateNewRunNode graph currentRun log1 with
      | (some _, log2) => some ((prevRunNodes, some "Failed to create new run node"), log2)
      | (none, log2) =>
        if hasPrevRun = true then
          match CreateEdgeBetweenRuns graph currentRun prevRunId log2 with
          | (some _, log3) =>
            some ((prevRunNodes, some "Failed to edge between current run and previous run"), log3)
          | (none, log3) => some ((prevRunNodes, none), log3)
        else some ((prevRunNodes, none), log2)

/-- Lines 172-210 of `saveVaccinationsData`: the three persistence stages. -/
def persistStages (graph : ArangoDB) (currentRun : String) (vaccinationNodes : Buckets)
    (log : List DbCall) : Option (Option String × List DbCall) :=
  match HandleNewCountries graph currentRun vaccinationNodes.new log with
  | none => none
  | some (_, log1) =>
    match HandleNewEdges graph currentRun vaccinationNodes.old log1 with
    | none => none
    | some (_, log2) =>
      if vaccinationNodes.changed.length > 0 then
        match HandleChangedCountries graph currentRun vaccinationNodes.changed log2 with
        | none => none
        | some (some err, log3) => some (some err, log3)
        | some (none, log3) => some (none, log3)
      else some (none, log2)

/-- What `saveVaccinationsData` reads from outside the store: the global `apiMetadata`, the
feed, the clock (the two formatted dates) and the orders in which `range` visits the two
maps. -/
structure Env where
  apiMetadata : ApiMetadata
  response : Except String (List Document)
  unmarshal : Document → Except String VaccinationStatusEntity
  rangeFeed : GoMap Document → GoMap Document
  rangeStatus : GoMap VaccinationStatus → GoMap VaccinationStatus
  currentRun : String
  prevRunId : String

/-- `saveVaccinationsData`. -/
def saveVaccinationsData (env : Env) (graph : ArangoDB) (log : List DbCall) :
    Option (Option String × List DbCall) :=
  match GetVaccinationStatus env.apiMetadata env.response env.unmarshal env.rangeFeed with
  | none => none
  | some (_, some _) => some (some "failed to get vaccinations status", log)
  | some (vaccinationsData, none) =>
    match handleNewRun graph env.currentRun env.prevRunId log with
    | none => none
    | some ((_, some _), log1) => some (some "failed to setup current run", log1)
    | some ((prevRunNodes, none), log1) =>
      match compareToPrevRunNodes (env.rangeStatus vaccinationsData) env.currentRun
          prevRunNodes with
      | none => none
      | some (_, some _) =>
        some (some "failed to compare current run with previous run", log1)
      | some (vaccinationNodes, none) =>
        persistStages graph env.currentRun vaccinationNodes log1

/-! ## A concrete store, feed and environment for the evaluations below -/

/-- The identifiers the example store assigns to an inserted document. -/
def exampleMeta (node : Node) : DocumentMeta :=
  ⟨documentKey node, "Vaccinations/" ++ documentKey node, "_rev"⟩

/-- A store whose traversal query delivers `reads`, whose other queries succeed, and whose
bulk insert fails with `writeError` when one is given. -/
def exampleStore (reads : List (Except String Document)) (writeError : Option String) :
    ArangoDB where
  db :=
    { unixNow := fun _ => 1612224000
      query := fun _ aql _ =>
        if stringsHasPrefix aql "FOR" then .ok ⟨reads, none⟩ else .ok ⟨[], none⟩
      collection := fun _ _ => none
      createDocuments := fun _ _ docs =>
        match writeError with
        | some err => ([], some err)
        | none => (docs.map exampleMeta, none)
      importDocuments := fun _ _ _ => none }

/-- The fact stored for Israel by the run of 2021-02-01: 100 people vaccinated. -/
def storedISR : Document :=
  [("_id", .string "Vaccinations/2021-02-01-ISR"), ("_key", .string "2021-02-01-ISR"),
   ("CountryCode", .string "ISR"), ("TotalPeopleVaccinated", .number ⟨100, 0⟩),
   ("collection", .string "Vaccinations")]

/-- The fact stored for the USA by the run of 2021-02-01: 250 people vaccinated. -/
def storedUSA : Document :=
  [("_id", .string "Vaccinations/2021-02-01-USA"), ("_key", .string "2021-02-01-USA"),
   ("CountryCode", .string "USA"), ("TotalPeopleVaccinated", .number ⟨250, 0⟩),
   ("collection", .string "Vaccinations")]

/-- The changed payloads of the run of 2021-02-02 when Israel goes from 100 to 150 and the
USA from 250 to 300. -/
def exampleChanged : List Node :=
  [changedNode "2021-02-02" ⟨"ISR", ⟨2021, 2, 2⟩, 150⟩ storedISR ⟨100, 0⟩,
   changedNode "2021-02-02" ⟨"USA", ⟨2021, 2, 2⟩, 300⟩ storedUSA ⟨250, 0⟩]

/-- A store that inserts documents like `exampleStore [] none` and rejects every edge import. -/
def importRejectingStore : ArangoDB where
  db :=
    { unixNow := fun _ => 1612224000
      query := fun _ _ _ => .ok ⟨[], none⟩
      collection := fun _ _ => none
      createDocuments := fun _ _ docs => (docs.map exampleMeta, none)
      importDocuments := fun _ _ _ => some "import failed" }

/-- A stored document without a `CountryCode` member. -/
def storedWithoutCountry : Document :=
  [("_id", .string "Vaccinations/2021-02-01-ISR"), ("TotalPeopleVaccinated", .number ⟨100, 0⟩)]

/-- A feed with Israel (two observations) and France, filtered to Israel and the USA. -/
def exampleEnv : Env where
  apiMetadata := ⟨"https://example.org/vaccinations.json", "iso_code", ["ISR", "USA"]⟩
  response := .ok [[("iso_code", .string "ISR"), ("data", .composite "[...]")],
                   [("iso_code", .string "FRA"), ("data", .composite "[...]")]]
  unmarshal := fun entity =>
    if GoMap.get? entity "iso_code" = some (.string "ISR") then
      .ok ⟨"ISR", [⟨"2021-02-01", 100⟩, ⟨"2021-02-02", 150⟩]⟩
    else .ok ⟨"FRA", [⟨"2021-02-02", 7⟩]⟩
  rangeFeed := id
  rangeStatus := id
  currentRun := "2021-02-02"
  prevRunId := "2021-02-01"

/-! ## Theorems: float64 -/

theorem bitLengthAux_spec (fuel n : Nat) (h : n ≤ fuel) (hn : 0 < n) :
    2 ^ (bitLengthAux fuel n - 1) ≤ n ∧ n < 2 ^ bitLengthAux fuel n := by
  induction fuel generalizing n with
  | zero => omega
  | succ fuel ih =>
    have hne : n ≠ 0 := by omega
    simp only [bitLengthAux, hne, if_false, Nat.add_sub_cancel]
    by_cases h2 : n / 2 = 0
    · have : n = 1 := by omega
      subst this
      cases fuel <;> simp [bitLengthAux]
    · have hpos : 0 < n / 2 := Nat.pos_of_ne_zero h2
      have hle : n / 2 ≤ fuel := by omega
      obtain ⟨h1, h3⟩ := ih (n / 2) hle hpos
      have hb : 1 ≤ bitLengthAux fuel (n / 2) := by
        by_contra hc
        have : bitLengthAux fuel (n / 2) = 0 := by omega
        rw [this] at h3
        simp at h3
        omega
      constructor
      · have : 2 ^ bitLengthAux fuel (n / 2) = 2 * 2 ^ (bitLengthAux fuel (n / 2) - 1) := by
          rw [← pow_succ']
          congr 1
          omega
        omega
      · rw [pow_succ]
        omega

theorem bitLength_spec (n : Nat) (hn : 0 < n) :
    2 ^ (bitLength n - 1) ≤ n ∧ n < 2 ^ bitLength n :=
  bitLengthAux_spec n n (le_refl n) hn

theorem Float64.eq_iff (a b : Float64) : Float64.eq a b = true ↔ a.toRat = b.toRat := by
  unfold Float64.eq Float64.toRat
  simp only [beq_iff_eq]
  have h2 : (2 : ℚ) ≠ 0 := by norm_num
  have ha : 0 ≤ a.e - min a.e b.e := by have := min_le_left a.e b.e; omega
  have hb : 0 ≤ b.e - min a.e b.e := by have := min_le_right a.e b.e; omega
  have ea : ((2 : ℚ) ^ (a.e - min a.e b.e).toNat) = 2 ^ a.e / 2 ^ (min a.e b.e) := by
    rw [← zpow_natCast, Int.toNat_of_nonneg ha, zpow_sub₀ h2]
  have eb : ((2 : ℚ) ^ (b.e - min a.e b.e).toNat) = 2 ^ b.e / 2 ^ (min a.e b.e) := by
    rw [← zpow_natCast, Int.toNat_of_nonneg hb, zpow_sub₀ h2]
  have hE : ((2 : ℚ) ^ (min a.e b.e)) ≠ 0 := zpow_ne_zero _ h2
  constructor
  · intro h
    have h' : ((a.m * 2 ^ (a.e - min a.e b.e).toNat : Int) : ℚ) = ((b.m * 2 ^ (b.e - min a.e b.e).toNat : Int) : ℚ) := by
      rw [h]
    push_cast at h'
    rw [ea, eb] at h'
    field_simp at h'
    exact h'
  · intro h
    have h' : ((a.m * 2 ^ (a.e - min a.e b.e).toNat : Int) : ℚ) = ((b.m * 2 ^ (b.e - min a.e b.e).toNat : Int) : ℚ) := by
      push_cast
      rw [ea, eb]
      field_simp
      exact h
    exact_mod_cast h'

theorem pow_dvd_of_few_bits (a c t L : Nat) (ha : 2 ^ 53 ≤ a) (hc : c ≤ 2 ^ 53)
    (hact : a = c * 2 ^ t) (h1 : 2 ^ (L - 1) ≤ a) (h2 : a < 2 ^ L) :
    1 ≤ L - 53 ∧ 2 ^ (L - 53) ∣ a := by
  have hL : 54 ≤ L := by
    by_contra hcon
    have h53 : L ≤ 53 := by omega
    have : 2 ^ L ≤ 2 ^ 53 := Nat.pow_le_pow_right (by norm_num) h53
    omega
  refine ⟨by omega, ?_⟩
  rcases Nat.lt_or_ge c (2 ^ 53) with hlt | hge
  · have hlt2 : a < 2 ^ (53 + t) := by
      rw [hact, pow_add]
      exact Nat.mul_lt_mul_of_pos_right hlt (Nat.two_pow_pos t)
    have h3 : 2 ^ (L - 1) < 2 ^ (53 + t) := lt_of_le_of_lt h1 hlt2
    have h4 : L - 1 < 53 + t := (Nat.pow_lt_pow_iff_right (by norm_num)).mp h3
    have hk : L - 53 ≤ t := by omega
    rw [hact]
    exact Dvd.dvd.mul_left (pow_dvd_pow 2 hk) c
  · have hceq : c = 2 ^ 53 := le_antisymm hc hge
    have haeq : a = 2 ^ (53 + t) := by rw [hact, hceq, pow_add]
    have h3 : 2 ^ (L - 1) ≤ 2 ^ (53 + t) := by rw [← haeq]; exact h1
    have h4 : L - 1 ≤ 53 + t := (Nat.pow_le_pow_iff_right (by norm_num)).mp h3
    rw [haeq]
    exact pow_dvd_pow 2 (by omega)

theorem roundNearestEven_exact (M E : Int) (c t : Nat) (hc : c ≤ 2 ^ 53)
    (hM : M.natAbs = c * 2 ^ t) : (roundNearestEven M E).toRat = (M : ℚ) * 2 ^ E := by
  by_cases hlt : M.natAbs < 2 ^ 53
  · have : roundNearestEven M E = ⟨M, E⟩ := by
      unfold roundNearestEven
      exact if_pos hlt
    rw [this]
    rfl
  · have hge : 2 ^ 53 ≤ M.natAbs := Nat.le_of_not_lt hlt
    have hpos : 0 < M.natAbs := lt_of_lt_of_le (by norm_num) hge
    obtain ⟨hb1, hb2⟩ := bitLength_spec M.natAbs hpos
    obtain ⟨hk, hdvd⟩ := pow_dvd_of_few_bits M.natAbs c t _ hge hc hM hb1 hb2
    have hr : M.natAbs % 2 ^ (bitLength M.natAbs - 53) = 0 := Nat.mod_eq_zero_of_dvd hdvd
    have hhalf : 0 < 2 ^ (bitLength M.natAbs - 53 - 1) := Nat.two_pow_pos _
    have hcond : ¬ (2 ^ (bitLength M.natAbs - 53 - 1) < M.natAbs % 2 ^ (bitLength M.natAbs - 53) ∨
        (M.natAbs % 2 ^ (bitLength M.natAbs - 53) = 2 ^ (bitLength M.natAbs - 53 - 1) ∧
          M.natAbs / 2 ^ (bitLength M.natAbs - 53) % 2 = 1)) := by
      rw [hr]
      omega
    have hval : roundNearestEven M E =
        ⟨M.sign * ((M.natAbs / 2 ^ (bitLength M.natAbs - 53) : Nat) : Int),
          E + ((bitLength M.natAbs - 53 : Nat) : Int)⟩ := by
      unfold roundNearestEven
      rw [if_neg hlt]
      dsimp only
      rw [if_neg hcond]
    rw [hval]
    generalize bitLength M.natAbs - 53 = k at hdvd
    obtain ⟨q, hq⟩ := hdvd
    have hqdiv : M.natAbs / 2 ^ k = q := by
      rw [hq]
      exact Nat.mul_div_cancel_left q (Nat.two_pow_pos k)
    have h2 : (2 : ℚ) ≠ 0 := by norm_num
    have hMs : (M : ℚ) = (M.sign : ℚ) * ((2 : ℚ) ^ k * (q : ℚ)) := by
      conv_lhs => rw [← Int.sign_mul_natAbs M, hq]
      push_cast
      ring
    unfold Float64.toRat
    dsimp only
    rw [hqdiv, zpow_add₀ h2, zpow_natCast, hMs]
    push_cast
    ring

theorem few_bits_of_repr (M E : Int) (g : Float64) (hg : g.m.natAbs ≤ 2 ^ 53)
    (h : g.toRat = (M : ℚ) * 2 ^ E) : ∃ c t : Nat, c ≤ 2 ^ 53 ∧ M.natAbs = c * 2 ^ t := by
  have h2 : (2 : ℚ) ≠ 0 := by norm_num
  unfold Float64.toRat at h
  rcases le_or_lt E g.e with hE | hE
  · refine ⟨g.m.natAbs, (g.e - E).toNat, hg, ?_⟩
    have hn : ((g.e - E).toNat : Int) = g.e - E := Int.toNat_of_nonneg (by omega)
    have hMq : (M : ℚ) = (g.m : ℚ) * 2 ^ (g.e - E).toNat := by
      rw [← zpow_natCast, hn, zpow_sub₀ h2, ← mul_div_assoc, h]
      field_simp
    have hMz : M = g.m * 2 ^ (g.e - E).toNat := by exact_mod_cast hMq
    rw [hMz, Int.natAbs_mul, Int.natAbs_pow]
    rfl
  · refine ⟨M.natAbs, 0, ?_, by simp⟩
    have hn : ((E - g.e).toNat : Int) = E - g.e := Int.toNat_of_nonneg (by omega)
    have hgq : (g.m : ℚ) = (M : ℚ) * 2 ^ (E - g.e).toNat := by
      rw [← zpow_natCast, hn, zpow_sub₀ h2, ← mul_div_assoc, ← h]
      field_simp
    have hgz : g.m = M * 2 ^ (E - g.e).toNat := by exact_mod_cast hgq
    have habs : g.m.natAbs = M.natAbs * 2 ^ (E - g.e).toNat := by
      rw [hgz, Int.natAbs_mul, Int.natAbs_pow]
      rfl
    have hone : 1 ≤ 2 ^ (E - g.e).toNat := Nat.one_le_two_pow
    calc M.natAbs = M.natAbs * 1 := (Nat.mul_one _).symm
      _ ≤ M.natAbs * 2 ^ (E - g.e).toNat := Nat.mul_le_mul_left _ hone
      _ = g.m.natAbs := habs.symm
      _ ≤ 2 ^ 53 := hg

theorem roundNearestEven_of_representable (M E : Int)
    (h : Float64.Representable ((M : ℚ) * 2 ^ E)) :
    (roundNearestEven M E).toRat = (M : ℚ) * 2 ^ E := by
  obtain ⟨g, hv, hg⟩ := h
  obtain ⟨c, t, hc, hM⟩ := few_bits_of_repr M E g (le_of_lt hv.1) hg
  exact roundNearestEven_exact M E c t hc hM

theorem ofInt64_toRat (x : Int) (h : Float64.Representable (x : ℚ)) :
    (Float64.ofInt64 x).toRat = x := by
  have h' : Float64.Representable ((x : ℚ) * 2 ^ (0 : Int)) := by simpa using h
  have := roundNearestEven_of_representable x 0 h'
  simpa [Float64.ofInt64] using this

theorem sub_toRat (a f : Float64) (h : Float64.Representable (a.toRat - f.toRat)) :
    (Float64.sub a f).toRat = a.toRat - f.toRat := by
  have h2 : (2 : ℚ) ≠ 0 := by norm_num
  have ha : 0 ≤ a.e - min a.e f.e := by have := min_le_left a.e f.e; omega
  have hb : 0 ≤ f.e - min a.e f.e := by have := min_le_right a.e f.e; omega
  have hME : ((a.m * 2 ^ (a.e - min a.e f.e).toNat - f.m * 2 ^ (f.e - min a.e f.e).toNat : Int) : ℚ)
      * 2 ^ (min a.e f.e) = a.toRat - f.toRat := by
    push_cast
    rw [← zpow_natCast, ← zpow_natCast, Int.toNat_of_nonneg ha, Int.toNat_of_nonneg hb,
      zpow_sub₀ h2, zpow_sub₀ h2]
    unfold Float64.toRat
    have hE : ((2 : ℚ) ^ (min a.e f.e)) ≠ 0 := zpow_ne_zero _ h2
    field_simp
  unfold Float64.sub
  dsimp only
  rw [← hME] at h
  rw [roundNearestEven_of_representable _ _ h, hME]

theorem representable_of_natAbs_le (n : Int) (h : n.natAbs ≤ 2 ^ 53) :
    Float64.Representable (n : ℚ) := by
  rcases Nat.lt_or_ge n.natAbs (2 ^ 53) with hlt | hge
  · exact ⟨⟨n, 0⟩, ⟨hlt, by norm_num, by norm_num⟩, by simp [Float64.toRat]⟩
  · have habs : n.natAbs = 2 ^ 53 := le_antisymm h hge
    refine ⟨⟨n.sign * 2 ^ 52, 1⟩, ⟨?_, by norm_num, by norm_num⟩, ?_⟩
    · have hn0 : n ≠ 0 := by
        intro h0
        rw [h0] at habs
        simp at habs
      show (n.sign * 2 ^ 52).natAbs < 2 ^ 53
      rw [Int.natAbs_mul, Int.natAbs_sign_of_nonzero hn0]
      norm_num
    · unfold Float64.toRat
      dsimp only
      have h1 : n = n.sign * (n.natAbs : Int) := (Int.sign_mul_natAbs n).symm
      have h3 : (n : ℚ) = (n.sign : ℚ) * 2 ^ 53 := by
        conv_lhs => rw [h1, habs]
        push_cast
        ring
      rw [h3]
      push_cast
      ring

/-! ## Theorems: compareToPrevRunNodes -/

theorem Buckets.append_empty (a : Buckets) : Buckets.append a ⟨[], [], []⟩ = a := by
  cases a; simp [Buckets.append]

theorem Buckets.empty_append (a : Buckets) : Buckets.append ⟨[], [], []⟩ a = a := by
  cases a; simp [Buckets.append]

theorem Buckets.append_assoc (a b c : Buckets) :
    Buckets.append (Buckets.append a b) c = Buckets.append a (Buckets.append b c) := by
  simp [Buckets.append]

theorem compareStep_acc (run : String) (prev : GoMap Document) (acc : Buckets)
    (entry : String × VaccinationStatus) :
    compareStep run prev acc entry =
      (compareStep run prev ⟨[], [], []⟩ entry).map (Buckets.append acc) := by
  simp only [compareStep]
  cases GoMap.get? prev entry.1 with
  | none => simp [Buckets.append]
  | some node =>
    dsimp only
    cases Document.index (jsonRoundTrip node) "TotalPeopleVaccinated" <;>
      simp [Buckets.append]
    split <;> simp [Buckets.append]

theorem compareLoop_acc (run : String) (prev : GoMap Document) (acc : Buckets)
    (vs : List (String × VaccinationStatus)) :
    compareLoop run prev acc vs =
      (compareLoop run prev ⟨[], [], []⟩ vs).map (Buckets.append acc) := by
  induction vs generalizing acc with
  | nil => simp [compareLoop, Buckets.append_empty]
  | cons e rest ih =>
    simp only [compareLoop]
    rw [compareStep_acc run prev acc e]
    cases hs : compareStep run prev ⟨[], [], []⟩ e with
    | none => simp
    | some s =>
      simp only [Option.map_some']
      rw [ih (Buckets.append acc s), ih s]
      cases compareLoop run prev ⟨[], [], []⟩ rest with
      | none => simp
      | some r => simp [Buckets.append_assoc]

theorem compareLoop_split (run : String) (prev : GoMap Document)
    (pre post : List (String × VaccinationStatus)) (e : String × VaccinationStatus)
    (r1 s r2 : Buckets)
    (h1 : compareLoop run prev ⟨[], [], []⟩ pre = some r1)
    (hs : compareStep run prev ⟨[], [], []⟩ e = some s)
    (h2 : compareLoop run prev ⟨[], [], []⟩ post = some r2) :
    compareLoop run prev ⟨[], [], []⟩ (pre ++ e :: post) =
      some (Buckets.append r1 (Buckets.append s r2)) := by
  induction pre generalizing r1 with
  | nil =>
    simp only [compareLoop] at h1
    cases h1
    simp only [List.nil_append, compareLoop, hs]
    rw [compareLoop_acc, h2]
    simp [Buckets.empty_append]
  | cons x pre ih =>
    simp only [List.cons_append, compareLoop] at h1 ⊢
    cases hx : compareStep run prev ⟨[], [], []⟩ x with
    | none => simp [hx] at h1
    | some sx =>
      simp only [hx] at h1 ⊢
      rw [compareLoop_acc] at h1 ⊢
      cases hp : compareLoop run prev ⟨[], [], []⟩ pre with
      | none => simp [hp] at h1
      | some rp =>
        rw [hp] at h1
        simp only [Option.map_some', Option.some.injEq] at h1
        have hih := ih rp hp
        simp only [List.append_eq] at hih ⊢
        rw [hih, ← h1]
        simp [Buckets.append_assoc]

theorem compareLoop_total (run : String) (prev : GoMap Document)
    (vs : List (String × VaccinationStatus)) (h : StoredFactsNumeric prev vs) :
    ∃ r, compareLoop run prev ⟨[], [], []⟩ vs = some r := by
  induction vs with
  | nil => exact ⟨_, rfl⟩
  | cons e rest ih =>
    have hrest : StoredFactsNumeric prev rest := fun x hx => h x (List.mem_cons_of_mem _ hx)
    obtain ⟨r, hr⟩ := ih hrest
    have hstep : ∃ s, compareStep run prev ⟨[], [], []⟩ e = some s := by
      simp only [compareStep]
      cases hg : GoMap.get? prev e.1 with
      | none => exact ⟨_, rfl⟩
      | some node =>
        obtain ⟨f, hf⟩ := h e (List.mem_cons_self _ _) node hg
        dsimp only [jsonRoundTrip]
        rw [hf]
        dsimp only
        split <;> exact ⟨_, rfl⟩
    obtain ⟨s, hs⟩ := hstep
    refine ⟨Buckets.append s r, ?_⟩
    simp only [compareLoop, hs]
    rw [compareLoop_acc, hr]
    rfl

theorem newNode_code (run : String) (d : VaccinationStatus) :
    GoMap.get? (newNode run d) "CountryCode" = some (.string d.CountryCode) := rfl

theorem changedNode_code (run : String) (d : VaccinationStatus) (node : Document) (f : Float64) :
    GoMap.get? (changedNode run d node f) "CountryCode" = some (.string d.CountryCode) := rfl

theorem compareStep_code (run : String) (prev : GoMap Document)
    (e : String × VaccinationStatus) (s : Buckets)
    (hs : compareStep run prev ⟨[], [], []⟩ e = some s) :
    ∀ n ∈ s.new ++ s.changed, GoMap.get? n "CountryCode" = some (.string e.2.CountryCode) := by
  simp only [compareStep] at hs
  cases hg : GoMap.get? prev e.1 with
  | none =>
    rw [hg] at hs
    simp only [Option.some.injEq] at hs
    subst hs
    intro n hn
    simp at hn
    subst hn
    rfl
  | some node =>
    rw [hg] at hs
    dsimp only at hs
    split at hs
    · split at hs
      · simp only [Option.some.injEq] at hs
        subst hs
        intro n hn
        simp at hn
      · simp only [Option.some.injEq] at hs
        subst hs
        intro n hn
        simp at hn
        subst hn
        rfl
    · cases hs

theorem compareLoop_code (run : String) (prev : GoMap Document)
    (vs : List (String × VaccinationStatus)) (r : Buckets)
    (hr : compareLoop run prev ⟨[], [], []⟩ vs = some r) :
    ∀ n ∈ r.new ++ r.changed, ∃ e ∈ vs, GoMap.get? n "CountryCode" = some (.string e.2.CountryCode) := by
  induction vs generalizing r with
  | nil =>
    simp only [compareLoop, Option.some.injEq] at hr
    subst hr
    intro n hn
    simp at hn
  | cons x rest ih =>
    simp only [compareLoop] at hr
    cases hx : compareStep run prev ⟨[], [], []⟩ x with
    | none => simp [hx] at hr
    | some sx =>
      simp only [hx] at hr
      rw [compareLoop_acc] at hr
      cases hp : compareLoop run prev ⟨[], [], []⟩ rest with
      | none => simp [hp] at hr
      | some rp =>
        rw [hp] at hr
        simp only [Option.map_some', Option.some.injEq] at hr
        subst hr
        intro n hn
        simp only [Buckets.append, List.mem_append] at hn
        have hsx := compareStep_code run prev x sx hx
        have hrp := ih rp hp
        rcases hn with (h | h) | (h | h)
        · exact ⟨x, List.mem_cons_self _ _, hsx n (List.mem_append.mpr (Or.inl h))⟩
        · obtain ⟨e, he, hc⟩ := hrp n (List.mem_append.mpr (Or.inl h))
          exact ⟨e, List.mem_cons_of_mem _ he, hc⟩
        · exact ⟨x, List.mem_cons_self _ _, hsx n (List.mem_append.mpr (Or.inr h))⟩
        · obtain ⟨e, he, hc⟩ := hrp n (List.mem_append.mpr (Or.inr h))
          exact ⟨e, List.mem_cons_of_mem _ he, hc⟩

theorem compareToPrevRunNodes_eq (vs : GoMap VaccinationStatus) (run : String)
    (prev : GoMap Document) (r : Buckets)
    (h : compareLoop run prev ⟨[], [], []⟩ vs = some r) :
    compareToPrevRunNodes vs run prev = some (r, none) := by
  simp [compareToPrevRunNodes, h]

/-- C5, amended.  Provided every stored fact that the loop consults for a country of the
mapping holds a number under `TotalPeopleVaccinated` (`StoredFactsNumeric`; otherwise the
assertion at line 113 panics and nothing is returned), a country of the current mapping that
has no entry in the previous-run snapshot contributes exactly one payload to the `new` bucket
and nothing to `old` or `changed`.  For every visiting order `pre ++ (country, data) :: post`
of a mapping with distinct keys whose entries carry their key as `CountryCode`, the function
returns, and its buckets are those of `pre`, then this payload in `new`, then those of `post`.
The payload has `_key = currentRun-country`, `date = currentRun`, the current count under
`TotalPeopleVaccinated`, no `diff` and no `prevAssetId`; no other payload of `new` or
`changed` is for this country. -/
theorem compareToPrevRunNodes_new_country (pre post : GoMap VaccinationStatus)
    (country : String) (data : VaccinationStatus) (currentRun : String)
    (prevRunNodes : GoMap Document)
    (hkeys : (GoMap.keys (pre ++ (country, data) :: post)).Nodup)
    (hcode : ∀ entry ∈ pre ++ (country, data) :: post, entry.2.CountryCode = entry.1)
    (hnum : StoredFactsNumeric prevRunNodes (pre ++ (country, data) :: post))
    (habsent : GoMap.get? prevRunNodes country = none) :
    ∃ r1 r2 payload,
      compareToPrevRunNodes pre currentRun prevRunNodes = some (r1, none) ∧
      compareToPrevRunNodes post currentRun prevRunNodes = some (r2, none) ∧
      compareToPrevRunNodes (pre ++ (country, data) :: post) currentRun prevRunNodes =
        some (⟨r1.new ++ payload :: r2.new, r1.old ++ r2.old, r1.changed ++ r2.changed⟩, none) ∧
      GoMap.get? payload "CountryCode" = some (.string country) ∧
      GoMap.get? payload "_key" = some (.string (currentRun ++ "-" ++ country)) ∧
      GoMap.get? payload "date" = some (.string currentRun) ∧
      GoMap.get? payload "TotalPeopleVaccinated" = some (.int64 data.TotalPeopleVaccinated) ∧
      GoMap.get? payload "diff" = none ∧
      GoMap.get? payload "prevAssetId" = none ∧
      (∀ n ∈ r1.new ++ r2.new ++ r1.changed ++ r2.changed,
        GoMap.get? n "CountryCode" ≠ some (.string country)) := by
  have hpre : StoredFactsNumeric prevRunNodes pre :=
    fun x hx => hnum x (List.mem_append.mpr (Or.inl hx))
  have hpost : StoredFactsNumeric prevRunNodes post :=
    fun x hx => hnum x (List.mem_append.mpr (Or.inr (List.mem_cons_of_mem _ hx)))
  obtain ⟨r1, h1⟩ := compareLoop_total currentRun prevRunNodes pre hpre
  obtain ⟨r2, h2⟩ := compareLoop_total currentRun prevRunNodes post hpost
  have hs : compareStep currentRun prevRunNodes ⟨[], [], []⟩ (country, data) =
      some ⟨[newNode currentRun data], [], []⟩ := by
    simp [compareStep, habsent]
  have hall := compareLoop_split currentRun prevRunNodes pre post (country, data) r1 _ r2 h1 hs h2
  have hcd : data.CountryCode = country :=
    hcode (country, data) (List.mem_append.mpr (Or.inr (List.mem_cons_self _ _)))
  refine ⟨r1, r2, newNode currentRun data, compareToPrevRunNodes_eq _ _ _ _ h1,
    compareToPrevRunNodes_eq _ _ _ _ h2, ?_, ?_, ?_, rfl, rfl, rfl, rfl, ?_⟩
  · rw [compareToPrevRunNodes_eq _ _ _ _ hall]
    simp [Buckets.append]
  · rw [← hcd]; rfl
  · rw [← hcd]; rfl
  · intro n hn hcontra
    simp only [GoMap.keys, List.map_append, List.map_cons] at hkeys
    have hnd := List.nodup_append.mp hkeys
    have hnotpre : country ∉ pre.map Prod.fst := by
      intro hmem
      exact hnd.2.2 hmem (List.mem_cons_self _ _)
    have hnotpost : country ∉ post.map Prod.fst := (List.nodup_cons.mp hnd.2.1).1
    have key : ∀ (xs : GoMap VaccinationStatus) (r : Buckets),
        compareLoop currentRun prevRunNodes ⟨[], [], []⟩ xs = some r →
        (∀ e ∈ xs, e.2.CountryCode = e.1) → country ∉ xs.map Prod.fst →
        n ∈ r.new ++ r.changed → False := by
      intro xs r hr hc hnot hmem
      obtain ⟨e, he, hget⟩ := compareLoop_code currentRun prevRunNodes xs r hr n hmem
      rw [hget] at hcontra
      simp only [Option.some.injEq, GoValue.string.injEq] at hcontra
      apply hnot
      rw [← hcontra, hc e he]
      exact List.mem_map_of_mem _ he
    simp only [List.mem_append] at hn
    have hcpre : ∀ e ∈ pre, e.2.CountryCode = e.1 :=
      fun e he => hcode e (List.mem_append.mpr (Or.inl he))
    have hcpost : ∀ e ∈ post, e.2.CountryCode = e.1 :=
      fun e he => hcode e (List.mem_append.mpr (Or.inr (List.mem_cons_of_mem _ he)))
    rcases hn with ((h | h) | h) | h
    · exact key pre r1 h1 hcpre hnotpre (List.mem_append.mpr (Or.inl h))
    · exact key post r2 h2 hcpost hnotpost (List.mem_append.mpr (Or.inl h))
    · exact key pre r1 h1 hcpre hnotpre (List.mem_append.mpr (Or.inr h))
    · exact key post r2 h2 hcpost hnotpost (List.mem_append.mpr (Or.inr h))

theorem compareLoop_around (run : String) (prev : GoMap Document)
    (pre post : GoMap VaccinationStatus) (e : String × VaccinationStatus) (s : Buckets)
    (hnum : StoredFactsNumeric prev (pre ++ e :: post))
    (hs : compareStep run prev ⟨[], [], []⟩ e = some s) :
    ∃ r1 r2,
      compareToPrevRunNodes pre run prev = some (r1, none) ∧
      compareToPrevRunNodes post run prev = some (r2, none) ∧
      compareToPrevRunNodes (pre ++ e :: post) run prev =
        some (⟨r1.new ++ s.new ++ r2.new, r1.old ++ s.old ++ r2.old,
          r1.changed ++ s.changed ++ r2.changed⟩, none) := by
  have hpre : StoredFactsNumeric prev pre :=
    fun x hx => hnum x (List.mem_append.mpr (Or.inl hx))
  have hpost : StoredFactsNumeric prev post :=
    fun x hx => hnum x (List.mem_append.mpr (Or.inr (List.mem_cons_of_mem _ hx)))
  obtain ⟨r1, h1⟩ := compareLoop_total run prev pre hpre
  obtain ⟨r2, h2⟩ := compareLoop_total run prev post hpost
  have hall := compareLoop_split run prev pre post e r1 s r2 h1 hs h2
  refine ⟨r1, r2, compareToPrevRunNodes_eq _ _ _ _ h1, compareToPrevRunNodes_eq _ _ _ _ h2, ?_⟩
  rw [compareToPrevRunNodes_eq _ _ _ _ hall]
  simp [Buckets.append]

/-- C6, amended.  Provided every stored fact that the loop consults for a country of the
mapping holds a number under `TotalPeopleVaccinated` (`StoredFactsNumeric`; otherwise the
assertion at line 113 panics and nothing is returned), a country whose stored fact holds a
count (a float64, `Valid`) equal to the current observation contributes exactly the stored
fact's `_id`, as it is, to the `old` bucket and nothing to `new` or `changed`: for every
visiting order `pre ++ (country, data) :: post` the function returns, `old` is the `old` of
`pre`, then this `_id`, then the `old` of `post`, and `new` and `changed` are those of `pre`
followed by those of `post`.  The value appended is the stored `_id` seen as an
`interface{}`: the very string `id` when the stored fact has `_id = id`. -/
theorem compareToPrevRunNodes_unchanged_country (pre post : GoMap VaccinationStatus)
    (country : String) (data : VaccinationStatus) (currentRun : String)
    (prevRunNodes : GoMap Document) (prevNode : Document) (prevNodeVaccinations : Float64)
    (hnum : StoredFactsNumeric prevRunNodes (pre ++ (country, data) :: post))
    (hstored : GoMap.get? prevRunNodes country = some prevNode)
    (hcount : Document.index prevNode "TotalPeopleVaccinated" = .number prevNodeVaccinations)
    (hvalid : prevNodeVaccinations.Valid)
    (hequal : prevNodeVaccinations.toRat = (data.TotalPeopleVaccinated : ℚ)) :
    ∃ r1 r2,
      compareToPrevRunNodes pre currentRun prevRunNodes = some (r1, none) ∧
      compareToPrevRunNodes post currentRun prevRunNodes = some (r2, none) ∧
      compareToPrevRunNodes (pre ++ (country, data) :: post) currentRun prevRunNodes =
        some (⟨r1.new ++ r2.new, r1.old ++ (Document.index prevNode "_id").toGo :: r2.old,
          r1.changed ++ r2.changed⟩, none) ∧
      (∀ id : String, GoMap.get? prevNode "_id" = some (.string id) →
        (Document.index prevNode "_id").toGo = GoValue.string id) := by
  have hrep : Float64.Representable (data.TotalPeopleVaccinated : ℚ) :=
    ⟨prevNodeVaccinations, hvalid, hequal⟩
  have heq : Float64.eq (Float64.ofInt64 data.TotalPeopleVaccinated) prevNodeVaccinations = true := by
    rw [Float64.eq_iff, ofInt64_toRat _ hrep, hequal]
  have hs : compareStep currentRun prevRunNodes ⟨[], [], []⟩ (country, data) =
      some ⟨[], [(Document.index prevNode "_id").toGo], []⟩ := by
    simp [compareStep, hstored, jsonRoundTrip, hcount, heq]
  obtain ⟨r1, r2, h1, h2, h3⟩ := compareLoop_around currentRun prevRunNodes pre post _ _ hnum hs
  refine ⟨r1, r2, h1, h2, ?_, ?_⟩
  · rw [h3]
    simp
  · intro id hid
    simp [Document.index, hid, JSONValue.toGo]

/-- C1, amended.  A country whose stored fact holds a count different from the current
observation contributes exactly one payload to the `changed` bucket and nothing to `new` or
`old`, with `diff` equal to the current count minus the stored count exactly (negative for a
decrease) and `prevAssetId` equal to the stored fact's `_id`, provided the current count and
the exact difference are float64 values (as they are whenever both counts are integers
between 0 and 2^53, see `representable_of_natAbs_le`).  Stated for every visiting order
`pre ++ (country, data) :: post` and every snapshot whose consulted facts hold a number. -/
theorem compareToPrevRunNodes_changed_country (pre post : GoMap VaccinationStatus)
    (country : String) (data : VaccinationStatus) (currentRun : String)
    (prevRunNodes : GoMap Document) (prevNode : Document) (prevNodeVaccinations : Float64)
    (hnum : StoredFactsNumeric prevRunNodes (pre ++ (country, data) :: post))
    (hstored : GoMap.get? prevRunNodes country = some prevNode)
    (hcount : Document.index prevNode "TotalPeopleVaccinated" = .number prevNodeVaccinations)
    (hdiffers : prevNodeVaccinations.toRat ≠ (data.TotalPeopleVaccinated : ℚ))
    (hcur : Float64.Representable (data.TotalPeopleVaccinated : ℚ))
    (hdiff : Float64.Representable
      ((data.TotalPeopleVaccinated : ℚ) - prevNodeVaccinations.toRat)) :
    ∃ r1 r2 payload diff,
      compareToPrevRunNodes pre currentRun prevRunNodes = some (r1, none) ∧
      compareToPrevRunNodes post currentRun prevRunNodes = some (r2, none) ∧
      compareToPrevRunNodes (pre ++ (country, data) :: post) currentRun prevRunNodes =
        some (⟨r1.new ++ r2.new, r1.old ++ r2.old,
          r1.changed ++ payload :: r2.changed⟩, none) ∧
      GoMap.get? payload "diff" = some (.float64 diff) ∧
      diff.toRat = (data.TotalPeopleVaccinated : ℚ) - prevNodeVaccinations.toRat ∧
      GoMap.get? payload "prevAssetId" = some (Document.index prevNode "_id").toGo := by
  have hne : ¬ Float64.eq (Float64.ofInt64 data.TotalPeopleVaccinated) prevNodeVaccinations = true := by
    rw [Float64.eq_iff, ofInt64_toRat _ hcur]
    exact fun h => hdiffers h.symm
  have hs : compareStep currentRun prevRunNodes ⟨[], [], []⟩ (country, data) =
      some ⟨[], [], [changedNode currentRun data prevNode prevNodeVaccinations]⟩ := by
    simp [compareStep, hstored, jsonRoundTrip, hcount, hne]
  obtain ⟨r1, r2, h1, h2, h3⟩ := compareLoop_around currentRun prevRunNodes pre post _ _ hnum hs
  refine ⟨r1, r2, changedNode currentRun data prevNode prevNodeVaccinations,
    Float64.sub (Float64.ofInt64 data.TotalPeopleVaccinated) prevNodeVaccinations,
    h1, h2, ?_, rfl, ?_, rfl⟩
  · rw [h3]
    simp
  · have hd' : Float64.Representable
        ((Float64.ofInt64 data.TotalPeopleVaccinated).toRat - prevNodeVaccinations.toRat) := by
      rw [ofInt64_toRat _ hcur]
      exact hdiff
    rw [sub_toRat _ _ hd', ofInt64_toRat _ hcur]

/-- C1, counterexample.  Above 2^53 the conversion to float64 rounds.  (1) The current count
2^53 + 1 and the stored count 2^53 differ, yet `float64(2^53 + 1) == 2^53` holds, so the
country lands in `old` and `changed` stays empty.  (2) With the current count 2^53 + 3 and the
stored count 0 the payload carries `diff = 2^53 + 4`, not the exact difference. -/
theorem compareToPrevRunNodes_large_counts :
    (⟨4503599627370496, 1⟩ : Float64).Valid ∧
    (⟨4503599627370496, 1⟩ : Float64).toRat ≠ ((9007199254740993 : Int) : ℚ) ∧
    compareToPrevRunNodes [("ISR", ⟨"ISR", ⟨2021, 2, 2⟩, 9007199254740993⟩)] "2021-02-02"
      [("ISR", [("_id", .string "Vaccinations/2021-02-01-ISR"),
                ("TotalPeopleVaccinated", .number ⟨4503599627370496, 1⟩)])] =
      some (⟨[], [.string "Vaccinations/2021-02-01-ISR"], []⟩, none) ∧
    (compareToPrevRunNodes [("USA", ⟨"USA", ⟨2021, 2, 2⟩, 9007199254740995⟩)] "2021-02-02"
      [("USA", [("_id", .string "Vaccinations/2021-02-01-USA"),
                ("TotalPeopleVaccinated", .number ⟨0, 0⟩)])]).map
        (fun r => r.1.changed.map (fun node => GoMap.get? node "diff")) =
      some [some (.float64 ⟨4503599627370498, 1⟩)] ∧
    (⟨4503599627370498, 1⟩ : Float64).toRat ≠
      ((9007199254740995 : Int) : ℚ) - (⟨0, 0⟩ : Float64).toRat := by
  refine ⟨by decide, ?_, by decide, by decide, ?_⟩
  · norm_num [Float64.toRat]
  · norm_num [Float64.toRat]

/-- C1, instance: the stored count 100 and the current count 150 give one changed payload
with `diff = 50`. -/
theorem compareToPrevRunNodes_changed_country_witness :
    ∃ r1 r2 payload diff,
      compareToPrevRunNodes [] "2021-02-02"
        [("USA", [("_id", .string "Vaccinations/2021-02-01-USA"),
                  ("TotalPeopleVaccinated", .number ⟨100, 0⟩)])] = some (r1, none) ∧
      compareToPrevRunNodes [] "2021-02-02"
        [("USA", [("_id", .string "Vaccinations/2021-02-01-USA"),
                  ("TotalPeopleVaccinated", .number ⟨100, 0⟩)])] = some (r2, none) ∧
      compareToPrevRunNodes ([] ++ ("USA", ⟨"USA", ⟨2021, 2, 2⟩, 150⟩) :: []) "2021-02-02"
        [("USA", [("_id", .string "Vaccinations/2021-02-01-USA"),
                  ("TotalPeopleVaccinated", .number ⟨100, 0⟩)])] =
        some (⟨r1.new ++ r2.new, r1.old ++ r2.old, r1.changed ++ payload :: r2.changed⟩, none) ∧
      GoMap.get? payload "diff" = some (.float64 diff) ∧
      diff.toRat = (((⟨"USA", ⟨2021, 2, 2⟩, 150⟩ : VaccinationStatus).TotalPeopleVaccinated : Int) : ℚ)
        - (⟨100, 0⟩ : Float64).toRat ∧
      GoMap.get? payload "prevAssetId" =
        some (Document.index [("_id", .string "Vaccinations/2021-02-01-USA"),
                  ("TotalPeopleVaccinated", .number ⟨100, 0⟩)] "_id").toGo :=
  compareToPrevRunNodes_changed_country [] [] "USA" ⟨"USA", ⟨2021, 2, 2⟩, 150⟩ "2021-02-02"
    [("USA", [("_id", .string "Vaccinations/2021-02-01-USA"),
              ("TotalPeopleVaccinated", .number ⟨100, 0⟩)])]
    [("_id", .string "Vaccinations/2021-02-01-USA"),
              ("TotalPeopleVaccinated", .number ⟨100, 0⟩)] ⟨100, 0⟩
    (by
      intro entry hentry prevNode hget
      simp at hentry
      subst hentry
      simp [GoMap.get?] at hget
      subst hget
      exact ⟨_, rfl⟩)
    rfl rfl
    (by norm_num [Float64.toRat])
    ⟨⟨150, 0⟩, by decide, by norm_num [Float64.toRat]⟩
    ⟨⟨50, 0⟩, by decide, by norm_num [Float64.toRat]⟩

/-- C5, counterexample.  The USA has no entry in the snapshot, but the snapshot's fact for
Israel, another country of the mapping, has no `TotalPeopleVaccinated`: the assertion
`.(float64)` panics and `compareToPrevRunNodes` returns nothing, so no payload for the USA is
put in `new`. -/
theorem compareToPrevRunNodes_new_country_panics :
    GoMap.get? ([("ISR", [("_id", .string "Vaccinations/2021-02-01-ISR"),
        ("CountryCode", .string "ISR")])] : GoMap Document) "USA" = none ∧
    compareToPrevRunNodes
      [("USA", ⟨"USA", ⟨2021, 2, 2⟩, 300⟩), ("ISR", ⟨"ISR", ⟨2021, 2, 2⟩, 100⟩)] "2021-02-02"
      [("ISR", [("_id", .string "Vaccinations/2021-02-01-ISR"),
                ("CountryCode", .string "ISR")])] = none := by
  decide

/-- C6, counterexample.  Israel's stored count 100 equals the current count, but the
snapshot's fact for the USA, another country of the mapping, has no `TotalPeopleVaccinated`:
the assertion `.(float64)` panics and `compareToPrevRunNodes` returns nothing, so Israel's
`_id` is not returned in `old`. -/
theorem compareToPrevRunNodes_unchanged_country_panics :
    GoMap.get? ([("ISR", storedISR), ("USA", [("_id", .string "Vaccinations/2021-02-01-USA"),
        ("CountryCode", .string "USA")])] : GoMap Document) "ISR" = some storedISR ∧
    Document.index storedISR "TotalPeopleVaccinated" = .number ⟨100, 0⟩ ∧
    compareToPrevRunNodes
      [("ISR", ⟨"ISR", ⟨2021, 2, 2⟩, 100⟩), ("USA", ⟨"USA", ⟨2021, 2, 2⟩, 300⟩)] "2021-02-02"
      [("ISR", storedISR), ("USA", [("_id", .string "Vaccinations/2021-02-01-USA"),
                ("CountryCode", .string "USA")])] = none := by
  decide

/-! ## Theorems: maps, GroupByKey, IsStringInlist -/

theorem GoMap.get?_set_self {α : Type} (m : GoMap α) (k : String) (v : α) :
    GoMap.get? (GoMap.set m k v) k = some v := by
  induction m with
  | nil => simp [GoMap.set, GoMap.get?]
  | cons x rest ih =>
    obtain ⟨k1, v1⟩ := x
    by_cases h : k1 = k
    · simp [GoMap.set, GoMap.get?, h]
    · simp [GoMap.set, GoMap.get?, h, ih]

theorem GoMap.get?_set_ne {α : Type} (m : GoMap α) (k k' : String) (v : α) (hne : k' ≠ k) :
    GoMap.get? (GoMap.set m k v) k' = GoMap.get? m k' := by
  induction m with
  | nil => simp [GoMap.set, GoMap.get?, Ne.symm hne]
  | cons x rest ih =>
    obtain ⟨k1, v1⟩ := x
    by_cases h : k1 = k
    · subst h
      simp [GoMap.set, GoMap.get?, Ne.symm hne]
    · by_cases h' : k1 = k'
      · subst h'
        simp [GoMap.set, GoMap.get?, h]
      · simp [GoMap.set, GoMap.get?, h, h', ih]

theorem GoMap.mem_keys_set {α : Type} (m : GoMap α) (k k' : String) (v : α) :
    k' ∈ GoMap.keys (GoMap.set m k v) ↔ k' = k ∨ k' ∈ GoMap.keys m := by
  induction m with
  | nil => simp [GoMap.set, GoMap.keys]
  | cons x rest ih =>
    obtain ⟨k1, v1⟩ := x
    by_cases h : k1 = k
    · subst h
      simp [GoMap.set, GoMap.keys]
    · simp only [GoMap.keys] at ih
      simp only [GoMap.set, h, if_false, GoMap.keys, List.map_cons, List.mem_cons, ih]
      tauto

theorem GoMap.nodup_keys_set {α : Type} (m : GoMap α) (k : String) (v : α)
    (h : (GoMap.keys m).Nodup) : (GoMap.keys (GoMap.set m k v)).Nodup := by
  induction m with
  | nil => simp [GoMap.set, GoMap.keys]
  | cons x rest ih =>
    obtain ⟨k1, v1⟩ := x
    have hn := List.nodup_cons.mp h
    by_cases hk : k1 = k
    · subst hk
      simpa [GoMap.set, GoMap.keys] using h
    · simp only [GoMap.set, hk, if_false]
      show (k1 :: GoMap.keys (GoMap.set rest k v)).Nodup
      refine List.nodup_cons.mpr ⟨?_, ih hn.2⟩
      rw [GoMap.mem_keys_set]
      intro hmem
      rcases hmem with h1 | h1
      · exact hk h1
      · exact hn.1 h1

theorem GoMap.get?_eq_none {α : Type} (m : GoMap α) (k : String) (h : k ∉ GoMap.keys m) :
    GoMap.get? m k = none := by
  induction m with
  | nil => rfl
  | cons x rest ih =>
    obtain ⟨k1, v1⟩ := x
    simp only [GoMap.keys, List.map_cons, List.mem_cons, not_or] at h
    have : k1 ≠ k := fun hc => h.1 hc.symm
    simp only [GoMap.get?, this, if_false]
    exact ih h.2

theorem GoMap.mem_of_get? {α : Type} (m : GoMap α) (k : String) (v : α)
    (h : GoMap.get? m k = some v) : (k, v) ∈ m := by
  induction m with
  | nil => simp [GoMap.get?] at h
  | cons x rest ih =>
    obtain ⟨k1, v1⟩ := x
    by_cases hk : k1 = k
    · simp [GoMap.get?, hk] at h
      simp [hk, h]
    · simp only [GoMap.get?, hk, if_false] at h
      exact List.mem_cons_of_mem _ (ih h)

theorem GoMap.get?_of_mem {α : Type} (m : GoMap α) (k : String) (v : α)
    (hnd : (GoMap.keys m).Nodup) (h : (k, v) ∈ m) : GoMap.get? m k = some v := by
  induction m with
  | nil => simp at h
  | cons x rest ih =>
    obtain ⟨k1, v1⟩ := x
    have hn := List.nodup_cons.mp hnd
    rcases List.mem_cons.mp h with heq | hmem
    · cases heq
      simp [GoMap.get?]
    · have hne : k1 ≠ k := by
        intro hc
        subst hc
        exact hn.1 (List.mem_map.mpr ⟨(k1, v), hmem, rfl⟩)
      simp only [GoMap.get?, hne, if_false]
      exact ih hn.2 hmem

theorem GoMap.mem_keys_of_get? {α : Type} (m : GoMap α) (k : String) (v : α)
    (h : GoMap.get? m k = some v) : k ∈ GoMap.keys m :=
  List.mem_map_of_mem Prod.fst (GoMap.mem_of_get? m k v h)

theorem IsStringInlistLoop_iff (items : List String) (val : String) :
    IsStringInlistLoop val items = true ↔ val ∈ items := by
  induction items with
  | nil => simp [IsStringInlistLoop]
  | cons x rest ih =>
    by_cases h : x = val
    · simp [IsStringInlistLoop, h]
    · simp [IsStringInlistLoop, h, ih, Ne.symm h]

theorem IsStringInlist_iff (items : List String) (val : String) :
    IsStringInlist items val = true ↔ val ∈ items := by
  unfold IsStringInlist
  cases items with
  | nil => simp
  | cons x rest => simp [IsStringInlistLoop_iff]

theorem GroupByKeyLoop_ok (key : String) (entities : List Document) (acc m : GoMap Document)
    (h : GroupByKeyLoop key acc entities = some (m, none)) (hacc : (GoMap.keys acc).Nodup) :
    (GoMap.keys m).Nodup ∧ ∀ c, c ∈ GoMap.keys m ↔
      (c ∈ GoMap.keys acc ∨ ∃ entity ∈ entities, GoMap.get? entity key = some (.string c)) := by
  induction entities generalizing acc with
  | nil =>
    simp only [GroupByKeyLoop, Option.some.injEq, Prod.mk.injEq, and_true] at h
    subst h
    exact ⟨hacc, by simp⟩
  | cons e rest ih =>
    simp only [GroupByKeyLoop] at h
    cases hg : GoMap.get? e key with
    | none => simp [hg] at h
    | some keyVal =>
      rw [hg] at h
      cases keyVal with
      | string s =>
        dsimp only at h
        obtain ⟨hnd, hiff⟩ := ih (GoMap.set acc s e) h (GoMap.nodup_keys_set acc s e hacc)
        refine ⟨hnd, fun c => ?_⟩
        rw [hiff c, GoMap.mem_keys_set]
        constructor
        · rintro ((h1 | h1) | ⟨entity, hmem, hget⟩)
          · exact Or.inr ⟨e, List.mem_cons_self _ _, by rw [hg, h1]⟩
          · exact Or.inl h1
          · exact Or.inr ⟨entity, List.mem_cons_of_mem _ hmem, hget⟩
        · rintro (h1 | ⟨entity, hmem, hget⟩)
          · exact Or.inl (Or.inr h1)
          · rcases List.mem_cons.mp hmem with heq | hmem'
            · subst heq
              rw [hg] at hget
              simp only [Option.some.injEq, JSONValue.string.injEq] at hget
              exact Or.inl (Or.inl hget.symm)
            · exact Or.inr ⟨entity, hmem', hget⟩
      | null => simp at h
      | bool b => simp at h
      | number f => simp at h
      | composite j => simp at h

theorem GroupByKeyLoop_error (key : String) (entities : List Document) (acc m : GoMap Document)
    (err : String) (h : GroupByKeyLoop key acc entities = some (m, some err)) : m = [] := by
  induction entities generalizing acc with
  | nil => simp [GroupByKeyLoop] at h
  | cons e rest ih =>
    simp only [GroupByKeyLoop] at h
    cases hg : GoMap.get? e key with
    | none =>
      rw [hg] at h
      simp only [Option.some.injEq, Prod.mk.injEq] at h
      exact h.1.symm
    | some keyVal =>
      rw [hg] at h
      cases keyVal with
      | string s => exact ih _ h
      | null => simp at h
      | bool b => simp at h
      | number f => simp at h
      | composite j => simp at h

/-! ## Theorems: GetVaccinationStatus -/

theorem GoMap.get?_of_mem_keys {α : Type} (m : GoMap α) (k : String) (h : k ∈ GoMap.keys m) :
    ∃ v, GoMap.get? m k = some v := by
  induction m with
  | nil => simp [GoMap.keys] at h
  | cons x rest ih =>
    obtain ⟨k1, v1⟩ := x
    by_cases hk : k1 = k
    · exact ⟨v1, by simp [GoMap.get?, hk]⟩
    · simp only [GoMap.keys, List.map_cons, List.mem_cons] at h
      rcases h with h | h
      · exact absurd h.symm hk
      · obtain ⟨v, hv⟩ := ih h
        exact ⟨v, by simp [GoMap.get?, hk, hv]⟩

theorem statusLoop_ok (api : ApiMetadata)
    (unmarshal : Document → Except String VaccinationStatusEntity)
    (entries : List (String × Document)) (acc out : GoMap VaccinationStatus)
    (hnd : (GoMap.keys entries).Nodup)
    (h : statusLoop api unmarshal acc entries = (out, none)) (c : String) :
    (∀ entity, (c, entity) ∈ entries → Included api c →
      ∃ status lastStatus lastStatusDate, unmarshal entity = .ok status ∧
        status.Data.getLast? = some lastStatus ∧
        timeParse lastStatus.Date = .ok lastStatusDate ∧
        GoMap.get? out c = some ⟨c, lastStatusDate, lastStatus.TotalPeopleVaccinated⟩) ∧
    ((c ∉ GoMap.keys entries ∨ ¬ Included api c) → GoMap.get? out c = GoMap.get? acc c) := by
  induction entries generalizing acc with
  | nil =>
    simp only [statusLoop, Prod.mk.injEq, and_true] at h
    subst h
    exact ⟨fun entity hmem => absurd hmem (List.not_mem_nil _), fun _ => rfl⟩
  | cons x rest ih =>
    obtain ⟨k, e⟩ := x
    have hn := List.nodup_cons.mp hnd
    simp only [statusLoop] at h
    by_cases hinc : api.CountriesFilter.length = 0 ∨ IsStringInlist api.CountriesFilter k = true
    · rw [if_pos hinc] at h
      cases hu : unmarshal e with
      | error err => simp [hu] at h
      | ok status =>
        rw [hu] at h
        dsimp only at h
        cases hl : status.Data.getLast? with
        | none => simp [hl] at h
        | some lastStatus =>
          rw [hl] at h
          dsimp only at h
          cases ht : timeParse lastStatus.Date with
          | error err => simp [ht] at h
          | ok lastStatusDate =>
            rw [ht] at h
            dsimp only at h
            obtain ⟨ih1, ih2⟩ := ih _ hn.2 h
            constructor
            · intro entity hmem hincl
              rcases List.mem_cons.mp hmem with heq | hmem'
              · cases heq
                refine ⟨status, lastStatus, lastStatusDate, hu, hl, ht, ?_⟩
                rw [ih2 (Or.inl hn.1), GoMap.get?_set_self]
              · exact ih1 entity hmem' hincl
            · intro hc
              have hck : c ≠ k := by
                rcases hc with hc | hc
                · intro heq
                  apply hc
                  rw [heq]
                  exact List.mem_cons_self _ _
                · intro heq
                  apply hc
                  rw [heq]
                  exact hinc
              have hrest : c ∉ GoMap.keys rest ∨ ¬ Included api c := by
                rcases hc with hc | hc
                · exact Or.inl (fun hm => hc (List.mem_cons_of_mem _ hm))
                · exact Or.inr hc
              rw [ih2 hrest, GoMap.get?_set_ne _ _ _ _ hck]
    · rw [if_neg hinc] at h
      obtain ⟨ih1, ih2⟩ := ih _ hn.2 h
      constructor
      · intro entity hmem hincl
        rcases List.mem_cons.mp hmem with heq | hmem'
        · cases heq
          exact absurd hincl hinc
        · exact ih1 entity hmem' hincl
      · intro hc
        have hrest : c ∉ GoMap.keys rest ∨ ¬ Included api c := by
          by_cases hi : Included api c
          · rcases hc with hc | hc
            · exact Or.inl (fun hm => hc (List.mem_cons_of_mem _ hm))
            · exact absurd hi hc
          · exact Or.inr hi
        exact ih2 hrest

theorem GetVaccinationStatus_ok (api : ApiMetadata) (response : Except String (List Document))
    (unmarshal : Document → Except String VaccinationStatusEntity)
    (range : GoMap Document → GoMap Document) (out : GoMap VaccinationStatus)
    (h : GetVaccinationStatus api response unmarshal range = some (out, none)) :
    ∃ feed m, response = .ok feed ∧ GroupByKey feed api.CountryCodeKey = some (m, none) ∧
      statusLoop api unmarshal [] (range m) = (out, none) := by
  unfold GetVaccinationStatus at h
  cases response with
  | error err => simp at h
  | ok feed =>
    dsimp only at h
    cases hg : GroupByKey feed api.CountryCodeKey with
    | none => simp [hg] at h
    | some r =>
      obtain ⟨m, e⟩ := r
      rw [hg] at h
      cases e with
      | some err => simp at h
      | none =>
        simp only [Option.some.injEq] at h
        exact ⟨feed, m, rfl, hg, h⟩

/-- C10.  Whenever `GetVaccinationStatus` succeeds (whatever order `range` visits the
grouped feed in), a country code is a key of the output mapping if and only if some record of
the feed carries it under `CountryCodeKey` and the allow-list `CountriesFilter` is empty or
contains the code. -/
theorem GetVaccinationStatus_keys (api : ApiMetadata) (feed : List Document)
    (unmarshal : Document → Except String VaccinationStatusEntity)
    (range : GoMap Document → GoMap Document) (out : GoMap VaccinationStatus)
    (hrange : ∀ m, (range m).Perm m)
    (hok : GetVaccinationStatus api (.ok feed) unmarshal range = some (out, none))
    (countryCode : String) :
    countryCode ∈ GoMap.keys out ↔
      ((∃ entity ∈ feed, GoMap.get? entity api.CountryCodeKey = some (.string countryCode)) ∧
        (api.CountriesFilter = [] ∨ countryCode ∈ api.CountriesFilter)) := by
  obtain ⟨feed', m, hfeed, hgroup, hloop⟩ := GetVaccinationStatus_ok _ _ _ _ _ hok
  cases hfeed
  obtain ⟨hnd, hkeys⟩ := GroupByKeyLoop_ok _ _ _ _ hgroup (by simp [GoMap.keys])
  have hperm : (GoMap.keys (range m)).Perm (GoMap.keys m) := (hrange m).map Prod.fst
  have hnd' : (GoMap.keys (range m)).Nodup := hperm.nodup_iff.mpr hnd
  obtain ⟨h1, h2⟩ := statusLoop_ok api unmarshal (range m) [] out hnd' hloop countryCode
  have hincl : Included api countryCode ↔
      (api.CountriesFilter = [] ∨ countryCode ∈ api.CountriesFilter) := by
    unfold Included
    rw [IsStringInlist_iff, List.length_eq_zero]
  have hfeedkeys : countryCode ∈ GoMap.keys (range m) ↔
      ∃ entity ∈ feed, GoMap.get? entity api.CountryCodeKey = some (.string countryCode) := by
    rw [hperm.mem_iff, hkeys countryCode]
    simp [GoMap.keys]
  rw [← hfeedkeys, ← hincl]
  constructor
  · intro hmem
    by_contra hcon
    have hnone : GoMap.get? out countryCode = none := by
      rw [h2 (by tauto)]
      rfl
    obtain ⟨v, hv⟩ := GoMap.get?_of_mem_keys out countryCode hmem
    rw [hv] at hnone
    cases hnone
  · rintro ⟨hmem, hinc⟩
    obtain ⟨⟨k, entity⟩, hkv, hk⟩ := List.mem_map.mp hmem
    simp only at hk
    subst hk
    obtain ⟨status, lastStatus, lastStatusDate, -, -, -, hget⟩ := h1 entity hkv hinc
    exact GoMap.mem_keys_of_get? _ _ _ hget

theorem Time.le_refl (t : Time) : Time.le t t = true := by
  simp [Time.le]

/-- C8, amended.  Whenever `GetVaccinationStatus` succeeds, the status of an included
country carries the date and the count of the last observation of that country's history
list; when the history is in chronological order this is the observation with the most
recent date (no observation of the history is dated later). -/
theorem GetVaccinationStatus_last_observation (api : ApiMetadata) (feed : List Document)
    (unmarshal : Document → Except String VaccinationStatusEntity)
    (range : GoMap Document → GoMap Document) (out : GoMap VaccinationStatus)
    (vaccinationsStatusMap : GoMap Document) (countryCode : String) (entity : Document)
    (hrange : ∀ m, (range m).Perm m)
    (hok : GetVaccinationStatus api (.ok feed) unmarshal range = some (out, none))
    (hgroup : GroupByKey feed api.CountryCodeKey = some (vaccinationsStatusMap, none))
    (hentity : GoMap.get? vaccinationsStatusMap countryCode = some entity)
    (hincluded : api.CountriesFilter = [] ∨ countryCode ∈ api.CountriesFilter) :
    ∃ status lastStatus lastStatusDate,
      unmarshal entity = .ok status ∧
      status.Data.getLast? = some lastStatus ∧
      timeParse lastStatus.Date = .ok lastStatusDate ∧
      GoMap.get? out countryCode =
        some ⟨countryCode, lastStatusDate, lastStatus.TotalPeopleVaccinated⟩ ∧
      (Chronological status.Data → ∀ o ∈ status.Data, ∃ t, timeParse o.Date = .ok t ∧
        Time.le t lastStatusDate = true) := by
  obtain ⟨feed', m, hfeed, hgroup', hloop⟩ := GetVaccinationStatus_ok _ _ _ _ _ hok
  cases hfeed
  rw [hgroup] at hgroup'
  simp only [Option.some.injEq, Prod.mk.injEq, and_true] at hgroup'
  subst hgroup'
  obtain ⟨hnd, -⟩ := GroupByKeyLoop_ok _ _ _ _ hgroup (by simp [GoMap.keys])
  have hperm : (GoMap.keys (range vaccinationsStatusMap)).Perm (GoMap.keys vaccinationsStatusMap) :=
    (hrange vaccinationsStatusMap).map Prod.fst
  have hnd' : (GoMap.keys (range vaccinationsStatusMap)).Nodup := hperm.nodup_iff.mpr hnd
  obtain ⟨h1, -⟩ := statusLoop_ok api unmarshal (range vaccinationsStatusMap) [] out hnd' hloop
    countryCode
  have hmem : (countryCode, entity) ∈ range vaccinationsStatusMap :=
    (hrange vaccinationsStatusMap).mem_iff.mpr (GoMap.mem_of_get? _ _ _ hentity)
  have hincl : Included api countryCode := by
    unfold Included
    rw [IsStringInlist_iff, List.length_eq_zero]
    exact hincluded
  obtain ⟨status, lastStatus, lastStatusDate, hu, hl, ht, hget⟩ := h1 entity hmem hincl
  refine ⟨status, lastStatus, lastStatusDate, hu, hl, ht, hget, ?_⟩
  intro hchron o ho
  obtain ⟨init, hinit⟩ := List.getLast?_eq_some_iff.mp hl
  unfold Chronological at hchron
  rw [hinit] at hchron ho
  rcases List.mem_append.mp ho with hmem' | hmem'
  · obtain ⟨ta, tb, hta, htb, hle⟩ :=
      (List.pairwise_append.mp hchron).2.2 o hmem' lastStatus (List.mem_singleton_self _)
    rw [ht] at htb
    cases htb
    exact ⟨ta, hta, hle⟩
  · rw [List.mem_singleton.mp hmem']
    exact ⟨lastStatusDate, ht, Time.le_refl _⟩

/-- C8, counterexample.  For the history `[2021-02-02: 20, 2021-02-01: 10]` the status
carries the date 2021-02-01 and the count 10, the last element of the list, although the
observation of 2021-02-02 is more recent. -/
theorem GetVaccinationStatus_unordered_history :
    GetVaccinationStatus ⟨"feed", "iso_code", ["ISR"]⟩
      (.ok [[("iso_code", .string "ISR"), ("data", .composite "[...]")]])
      (fun _ => .ok ⟨"ISR", [⟨"2021-02-02", 20⟩, ⟨"2021-02-01", 10⟩]⟩) id =
      some ([("ISR", ⟨"ISR", ⟨2021, 2, 1⟩, 10⟩)], none) ∧
    timeParse "2021-02-02" = .ok ⟨2021, 2, 2⟩ ∧
    Time.le ⟨2021, 2, 2⟩ ⟨2021, 2, 1⟩ = false :=
  ⟨by decide, rfl, by decide⟩

/-! ## Theorems: HandleChangedCountries -/

theorem GoMap.get?_delete_ne {α : Type} (m : GoMap α) (k k' : String) (hne : k' ≠ k) :
    GoMap.get? (GoMap.delete m k) k' = GoMap.get? m k' := by
  induction m with
  | nil => rfl
  | cons x rest ih =>
    obtain ⟨k1, v1⟩ := x
    unfold GoMap.delete at ih ⊢
    rw [List.filter_cons]
    by_cases h : k1 = k
    · have hd : decide ((k1, v1).1 ≠ k) = false := by simp [h]
      rw [hd]
      simp only [Bool.false_eq_true, if_false]
      rw [ih]
      have hk : k1 ≠ k' := by rw [h]; exact Ne.symm hne
      simp [GoMap.get?, hk]
    · have hd : decide ((k1, v1).1 ≠ k) = true := by simp [h]
      rw [hd]
      simp only [if_true]
      by_cases h' : k1 = k'
      · simp [GoMap.get?, h']
      · simp only [GoMap.get?, h', if_false]
        exact ih

theorem splitChangedNodes_eq (changedNodes : List Node) (keys prevIds : List String)
    (newPrevMap : GoMap GoValue) (nodes : List Node)
    (hkey : changedNodes.map (fun n => GoMap.get? n "_key") =
      keys.map (fun k => some (GoValue.string k)))
    (hprev : changedNodes.map (fun n => GoMap.get? n "prevAssetId") =
      prevIds.map (fun p => some (GoValue.string p))) :
    splitChangedNodes newPrevMap nodes changedNodes =
      some (prevMapOf newPrevMap keys prevIds,
        nodes ++ changedNodes.map (fun n => GoMap.delete n "prevAssetId")) := by
  induction changedNodes generalizing keys prevIds newPrevMap nodes with
  | nil =>
    cases keys with
    | nil => simp [splitChangedNodes, prevMapOf]
    | cons k ks => simp at hkey
  | cons n rest ih =>
    cases keys with
    | nil => simp at hkey
    | cons k ks =>
      cases prevIds with
      | nil => simp at hprev
      | cons p ps =>
        simp only [List.map_cons, List.cons.injEq] at hkey hprev
        have hk : GoMap.get? (GoMap.delete n "prevAssetId") "_key" = some (GoValue.string k) := by
          rw [GoMap.get?_delete_ne _ _ _ (by decide), hkey.1]
        simp only [splitChangedNodes, hprev.1, hk]
        rw [ih ks ps _ _ hkey.2 hprev.2]
        simp [prevMapOf]

theorem prevMapOf_get?_not_mem (newPrevMap : GoMap GoValue) (keys prevIds : List String)
    (k : String) (h : k ∉ keys) :
    GoMap.get? (prevMapOf newPrevMap keys prevIds) k = GoMap.get? newPrevMap k := by
  induction keys generalizing prevIds newPrevMap with
  | nil => simp [prevMapOf]
  | cons k1 ks ih =>
    cases prevIds with
    | nil => simp [prevMapOf]
    | cons p ps =>
      simp only [List.mem_cons, not_or] at h
      have := ih (GoMap.set newPrevMap k1 (GoValue.string p)) ps h.2
      simp only [prevMapOf, List.zip_cons_cons, List.foldl_cons] at this ⊢
      rw [this, GoMap.get?_set_ne _ _ _ _ h.1]

theorem prevMapOf_lookup (newPrevMap : GoMap GoValue) (keys prevIds : List String)
    (hnd : keys.Nodup) (hlen : keys.length = prevIds.length) :
    keys.map (fun k => (GoMap.get? (prevMapOf newPrevMap keys prevIds) k).getD GoValue.nil) =
      prevIds.map GoValue.string := by
  induction keys generalizing prevIds newPrevMap with
  | nil =>
    cases prevIds with
    | nil => rfl
    | cons p ps => simp at hlen
  | cons k ks ih =>
    cases prevIds with
    | nil => simp at hlen
    | cons p ps =>
      have hn := List.nodup_cons.mp hnd
      simp only [List.length_cons, Nat.add_right_cancel_iff] at hlen
      have htail := ih (GoMap.set newPrevMap k (GoValue.string p)) ps hn.2 hlen
      have hhead := prevMapOf_get?_not_mem (GoMap.set newPrevMap k (GoValue.string p)) ks ps k hn.1
      simp only [prevMapOf, List.zip_cons_cons, List.foldl_cons, List.map_cons] at htail hhead ⊢
      rw [hhead, GoMap.get?_set_self, htail]
      rfl

theorem runEdges_eq (date : String) (metas : List DocumentMeta) :
    runEdges date (metas.map (fun node => GoValue.string node.ID)) =
      some (metas.map (fun node => ⟨date, node.ID, "VaccinationsEdges"⟩)) := by
  induction metas with
  | nil => rfl
  | cons x rest ih => simp [runEdges, ih]

theorem factEdges_eq (prevIds : List String) (metas : List DocumentMeta)
    (hlen : prevIds.length = metas.length) :
    factEdges (prevIds.map GoValue.string) (metas.map (fun node => GoValue.string node.ID)) =
      some (List.zipWith (fun p node => ⟨p, node.ID, "VaccinationsEdges"⟩) prevIds metas) := by
  induction prevIds generalizing metas with
  | nil =>
    cases metas with
    | nil => rfl
    | cons x rest => simp at hlen
  | cons p ps ih =>
    cases metas with
    | nil => simp at hlen
    | cons x rest =>
      simp only [List.length_cons, Nat.add_right_cancel_iff] at hlen
      simp [factEdges, ih rest hlen]

theorem documentKey_stripped (changedNodes : List Node) (keys : List String)
    (hkey : changedNodes.map (fun n => GoMap.get? n "_key") =
      keys.map (fun k => some (GoValue.string k))) :
    (changedNodes.map (fun n => GoMap.delete n "prevAssetId")).map documentKey = keys := by
  induction changedNodes generalizing keys with
  | nil =>
    cases keys with
    | nil => rfl
    | cons k ks => simp at hkey
  | cons n rest ih =>
    cases keys with
    | nil => simp at hkey
    | cons k ks =>
      simp only [List.map_cons, List.cons.injEq] at hkey
      have hk : documentKey (GoMap.delete n "prevAssetId") = k := by
        unfold documentKey
        rw [GoMap.get?_delete_ne _ _ _ (by decide), hkey.1]
      simp only [List.map_cons, hk, ih ks hkey.2]

/-- C9, amended.  `HandleChangedCountries` creates the fact-to-fact edges one-to-one by
position when the store lets it get that far.  For changed payloads with pairwise distinct
string `_key`s (`keys`) and string `prevAssetId`s (`prevIds`), and a store that accepts every
collection lookup, answers every bulk insert without error with one identifier per inserted
document, in input order, carrying that document's `_key`, and accepts the import of the
edges that leave the run vertex: the last driver call of `HandleChangedCountries` imports
the edges `zipWith` of `prevIds` and the inserted documents' identifiers (edge `i` runs from
the `i`-th payload's `prevAssetId` to the identifier of the `i`-th inserted fact), there is
exactly one such edge per payload (whether the store then accepts that last import is not
assumed). -/
theorem HandleChangedCountries_fact_edges (graph : ArangoDB) (date : String)
    (changedNodes : List Node) (log : List DbCall) (keys prevIds : List String)
    (hkey : changedNodes.map (fun n => GoMap.get? n "_key") =
      keys.map (fun k => some (GoValue.string k)))
    (hprev : changedNodes.map (fun n => GoMap.get? n "prevAssetId") =
      prevIds.map (fun p => some (GoValue.string p)))
    (hdistinct : keys.Nodup)
    (hcollection : ∀ l name, graph.db.collection l name = none)
    (hcreate : ∀ l c docs, (graph.db.createDocuments l c docs).2 = none ∧
      (graph.db.createDocuments l c docs).1.map DocumentMeta.Key = docs.map documentKey)
    (hrunEdges : ∀ l edges, (∀ e ∈ edges, e.From = runVertex date) →
      graph.db.importDocuments l "VaccinationsEdges" edges = none) :
    ∃ (docs : List DocumentMeta) (err : Option String),
      docs = (graph.db.createDocuments (log ++ [DbCall.collection "Vaccinations"]) "Vaccinations"
        (changedNodes.map (fun n => GoMap.delete n "prevAssetId"))).1 ∧
      docs.length = changedNodes.length ∧
      (List.zipWith (fun p node => (⟨p, node.ID, "VaccinationsEdges"⟩ : VaccinationEdge))
        prevIds docs).length = changedNodes.length ∧
      HandleChangedCountries graph date changedNodes log =
        some (err, log ++
          [DbCall.collection "Vaccinations",
           DbCall.createDocuments "Vaccinations"
             (changedNodes.map (fun n => GoMap.delete n "prevAssetId")),
           DbCall.collection "VaccinationsEdges",
           DbCall.importDocuments "VaccinationsEdges"
             (docs.map (fun node => ⟨runVertex date, node.ID, "VaccinationsEdges"⟩)),
           DbCall.collection "VaccinationsEdges",
           DbCall.importDocuments "VaccinationsEdges"
             (List.zipWith (fun p node => ⟨p, node.ID, "VaccinationsEdges"⟩) prevIds docs)]) := by
  have hlenk : keys.length = changedNodes.length := by
    have := congrArg List.length hkey
    simpa using this.symm
  have hlenp : prevIds.length = changedNodes.length := by
    have := congrArg List.length hprev
    simpa using this.symm
  obtain ⟨hc1, hc2⟩ := hcreate (log ++ [DbCall.collection "Vaccinations"]) "Vaccinations"
    (changedNodes.map (fun n => GoMap.delete n "prevAssetId"))
  generalize hdocs : graph.db.createDocuments (log ++ [DbCall.collection "Vaccinations"])
    "Vaccinations" (changedNodes.map (fun n => GoMap.delete n "prevAssetId")) = created at hc1 hc2
  obtain ⟨docs, err⟩ := created
  simp only at hc1 hc2
  subst hc1
  have hdockeys := documentKey_stripped changedNodes keys hkey
  rw [hdockeys] at hc2
  have hlend : docs.length = changedNodes.length := by
    have := congrArg List.length hc2
    simp only [List.length_map] at this
    rw [this, hlenk]
  have hrun : ∀ l, graph.db.importDocuments l "VaccinationsEdges"
      (docs.map (fun node => (⟨runVertex date, node.ID, "VaccinationsEdges"⟩ : VaccinationEdge)))
      = none := by
    intro l
    apply hrunEdges
    intro e he
    obtain ⟨node, -, rfl⟩ := List.mem_map.mp he
    rfl
  have hprevIds : docs.map (fun node =>
      (GoMap.get? (prevMapOf [] keys prevIds) node.Key).getD GoValue.nil) =
      prevIds.map GoValue.string := by
    have hmap : docs.map (fun node =>
        (GoMap.get? (prevMapOf [] keys prevIds) node.Key).getD GoValue.nil) =
        (docs.map DocumentMeta.Key).map (fun k =>
          (GoMap.get? (prevMapOf [] keys prevIds) k).getD GoValue.nil) := by
      rw [List.map_map]
      rfl
    rw [hmap, hc2]
    exact prevMapOf_lookup [] keys prevIds hdistinct (by rw [hlenk, hlenp])
  have hresult : ∃ err, HandleChangedCountries graph date changedNodes log =
      some (err, log ++
        [DbCall.collection "Vaccinations",
         DbCall.createDocuments "Vaccinations"
           (changedNodes.map (fun n => GoMap.delete n "prevAssetId")),
         DbCall.collection "VaccinationsEdges",
         DbCall.importDocuments "VaccinationsEdges"
           (docs.map (fun node => ⟨runVertex date, node.ID, "VaccinationsEdges"⟩)),
         DbCall.collection "VaccinationsEdges",
         DbCall.importDocuments "VaccinationsEdges"
           (List.zipWith (fun p node => ⟨p, node.ID, "VaccinationsEdges"⟩) prevIds docs)]) := by
    unfold HandleChangedCountries
    rw [splitChangedNodes_eq changedNodes keys prevIds [] [] hkey hprev]
    simp only [List.nil_append, createNewVaccinationsDocuments, hcollection, hdocs]
    rw [hprevIds]
    simp only [HandleNewEdges, createEdgeBetweenRunAndNodes, runEdges_eq, hcollection, hrun,
      createEdgeBetweenOldAndNewNodes, factEdges_eq prevIds docs (by rw [hlenp, hlend])]
    cases graph.db.importDocuments
      (log ++ [DbCall.collection "Vaccinations"] ++
        [DbCall.createDocuments "Vaccinations"
          (changedNodes.map (fun n => GoMap.delete n "prevAssetId"))] ++
        [DbCall.collection "VaccinationsEdges"] ++
        [DbCall.importDocuments "VaccinationsEdges"
          (docs.map (fun node => ⟨runVertex date, node.ID, "VaccinationsEdges"⟩))] ++
        [DbCall.collection "VaccinationsEdges"]) "VaccinationsEdges"
      (List.zipWith (fun p node => ⟨p, node.ID, "VaccinationsEdges"⟩) prevIds docs) with
    | none => exact ⟨none, by simp⟩
    | some e => exact ⟨some e, by simp⟩
  obtain ⟨e, he⟩ := hresult
  refine ⟨docs, e, rfl, hlend, ?_, he⟩
  rw [List.length_zipWith, hlenp, hlend, Nat.min_self]

/-- C9, counterexample.  Two changed payloads with distinct `_key`s and a store that returns
one identifier per inserted document, in input order, with that document's `_key`, but
rejects edge imports: `HandleChangedCountries` returns the error of the run-to-fact import
(lines 300-303) after four driver calls and imports no fact-to-fact edge. -/
theorem HandleChangedCountries_run_edge_import_fails :
    exampleChanged.map (fun n => GoMap.get? n "_key") =
      [some (.string "2021-02-02-ISR"), some (.string "2021-02-02-USA")] ∧
    (importRejectingStore.db.createDocuments [DbCall.collection "Vaccinations"] "Vaccinations"
        (exampleChanged.map (fun n => GoMap.delete n "prevAssetId"))).1.map DocumentMeta.Key =
      ["2021-02-02-ISR", "2021-02-02-USA"] ∧
    HandleChangedCountries importRejectingStore "2021-02-02" exampleChanged [] =
      some (some "import failed",
        [DbCall.collection "Vaccinations",
         DbCall.createDocuments "Vaccinations"
           (exampleChanged.map (fun n => GoMap.delete n "prevAssetId")),
         DbCall.collection "VaccinationsEdges",
         DbCall.importDocuments "VaccinationsEdges"
           [⟨"Runs/2021-02-02", "Vaccinations/2021-02-02-ISR", "VaccinationsEdges"⟩,
            ⟨"Runs/2021-02-02", "Vaccinations/2021-02-02-USA", "VaccinationsEdges"⟩]]) := by
  refine ⟨?_, ?_, ?_⟩
  · decide
  · decide
  · rfl

/-! ## Theorems: handleNewRun -/

theorem GetVaccinationNodes_log (graph : ArangoDB) (date : String) (log : List DbCall) :
    (GetVaccinationNodes graph date log).2 = log ++ [DbCall.query
      vaccinationNodesQuery
      [("runDate", .string ("Runs/" ++ date))]] := by
  unfold GetVaccinationNodes
  dsimp only
  split <;> rfl

theorem CreateEdgeBetweenRuns_log (graph : ArangoDB) (previousDrift currentDrift : String)
    (log : List DbCall) :
    (CreateEdgeBetweenRuns graph previousDrift currentDrift log).2 = log ++ [DbCall.query
      runEdgeInsertQuery
      [("from", .string ("Runs/" ++ previousDrift)), ("to", .string ("Runs/" ++ currentDrift))]] := by
  unfold CreateEdgeBetweenRuns
  dsimp only
  split <;> rfl

/-- For every pair of run ids: when the previous run was read without error and is not
empty and the run node was created, the last driver call of `handleNewRun` inserts the edge
with `_from = Runs/currentRun` and `_to = Runs/prevRunId`. -/
theorem handleNewRun_edge_endpoints (graph : ArangoDB) (currentRun prevRunId : String)
    (log log1 log2 : List DbCall) (prevRun : List Document) (prevRunNodes : GoMap Document)
    (hread : GetVaccinationNodes graph prevRunId log = ((prevRun, none), log1))
    (hsome : prevRun ≠ [])
    (hgroup : GroupByKey prevRun "CountryCode" = some (prevRunNodes, none))
    (hnode : CreateNewRunNode graph currentRun log1 = (none, log2)) :
    ∃ err, handleNewRun graph currentRun prevRunId log =
      some ((prevRunNodes, err), log2 ++ [DbCall.query
        runEdgeInsertQuery
        [("from", .string ("Runs/" ++ currentRun)), ("to", .string ("Runs/" ++ prevRunId))]]) := by
  have hlen : prevRun.length ≠ 0 := fun h => hsome (List.length_eq_zero.mp h)
  have hlog := CreateEdgeBetweenRuns_log graph currentRun prevRunId log2
  unfold handleNewRun
  rw [hread]
  simp only [hgroup, hnode, hlen, ne_eq, not_true_eq_false, or_self, if_false, if_true]
  generalize CreateEdgeBetweenRuns graph currentRun prevRunId log2 = r at hlog
  obtain ⟨e, log3⟩ := r
  simp only at hlog
  subst hlog
  cases e <;> exact ⟨_, rfl⟩

/-- C2, evaluation.  With a previous run of one fact, `handleNewRun "2021-02-02" "2021-02-01"`
succeeds and the run-to-run edge it inserts has `_from = "Runs/2021-02-02"` (the current run)
and `_to = "Runs/2021-02-01"` (the previous run): the arguments of `CreateEdgeBetweenRuns`,
declared as `(previousDrift, currentDrift)`, are passed as `(currentRun, prevRunId)`. -/
theorem handleNewRun_run_edge_reversed :
    (handleNewRun (exampleStore [.ok storedISR] none) "2021-02-02" "2021-02-01" []).map
        (fun r => (r.1.2, r.2.getLast?)) =
      some (none, some (DbCall.query
        runEdgeInsertQuery
        [("from", .string "Runs/2021-02-02"), ("to", .string "Runs/2021-02-01")])) := by
  decide

/-- C3, evaluation.  The cursor delivers Israel's stored fact and then fails.
`GetVaccinationNodes` returns the fact read so far together with the error; `handleNewRun`
creates the run node and no run-to-run edge, yet returns a snapshot that still holds that
fact; `compareToPrevRunNodes` then puts Israel (count unchanged) in `old`, not in `new`. -/
theorem handleNewRun_incomplete_read :
    (GetVaccinationNodes (exampleStore [.ok storedISR, .error "connection reset"] none)
        "2021-02-01" []).1 =
      ([storedISR], some "failed reading document: connection reset") ∧
    handleNewRun (exampleStore [.ok storedISR, .error "connection reset"] none)
        "2021-02-02" "2021-02-01" [] =
      some (([("ISR", storedISR)], none),
        [DbCall.query
          vaccinationNodesQuery
          [("runDate", .string "Runs/2021-02-01")],
         DbCall.query
          runInsertQuery
          [("key", .string "2021-02-02"), ("createdAt", .int64 1612224000)]]) ∧
    compareToPrevRunNodes [("ISR", ⟨"ISR", ⟨2021, 2, 2⟩, 100⟩)] "2021-02-02" [("ISR", storedISR)] =
      some (⟨[], [.string "Vaccinations/2021-02-01-ISR"], []⟩, none) := by
  refine ⟨?_, ?_, ?_⟩
  · decide
  · rfl
  · decide

/-- C4, counterexample.  A previous-run node without `CountryCode` makes `GroupByKey` fail;
`handleNewRun` then returns the error "Unknown format of previous run nodes" after the
traversal query alone, and `saveVaccinationsData` returns "failed to setup current run". -/
theorem handleNewRun_unparsable_previous_run :
    GroupByKey [storedWithoutCountry] "CountryCode" =
      some ([], some "failed to find CountryCode key") ∧
    handleNewRun (exampleStore [.ok storedWithoutCountry] none) "2021-02-02" "2021-02-01" [] =
      some (([], some "Unknown format of previous run nodes"),
        [DbCall.query
          vaccinationNodesQuery
          [("runDate", .string "Runs/2021-02-01")]]) ∧
    (saveVaccinationsData exampleEnv (exampleStore [.ok storedWithoutCountry] none) []).map
        Prod.fst = some (some "failed to setup current run") := by
  refine ⟨?_, ?_, ?_⟩
  · decide
  · rfl
  · decide

/-- C4, amended.  If `GroupByKey` fails on the nodes read for the previous run,
`handleNewRun` fails: it returns a nil snapshot with the error "Unknown format of previous run
nodes", having issued the traversal query and no other driver call (no run node, no run
edge); `saveVaccinationsData` then returns "failed to setup current run" with the same log,
so no country is classified or persisted. -/
theorem handleNewRun_group_error (graph : ArangoDB) (currentRun prevRunId : String)
    (log : List DbCall) (prevRunNodes : GoMap Document) (err : String)
    (hgroup : GroupByKey (GetVaccinationNodes graph prevRunId log).1.1 "CountryCode" =
      some (prevRunNodes, some err)) :
    handleNewRun graph currentRun prevRunId log =
      some (([], some "Unknown format of previous run nodes"), log ++ [DbCall.query
        vaccinationNodesQuery
        [("runDate", .string ("Runs/" ++ prevRunId))]]) ∧
    ∀ env : Env, env.currentRun = currentRun → env.prevRunId = prevRunId →
      ∀ vaccinationsData,
        GetVaccinationStatus env.apiMetadata env.response env.unmarshal env.rangeFeed =
          some (vaccinationsData, none) →
        saveVaccinationsData env graph log =
          some (some "failed to setup current run", log ++ [DbCall.query
            vaccinationNodesQuery
            [("runDate", .string ("Runs/" ++ prevRunId))]]) := by
  have hnil : prevRunNodes = [] := GroupByKeyLoop_error _ _ _ _ _ hgroup
  subst hnil
  have hlog := GetVaccinationNodes_log graph prevRunId log
  have hrun : handleNewRun graph currentRun prevRunId log =
      some (([], some "Unknown format of previous run nodes"), log ++ [DbCall.query
        vaccinationNodesQuery
        [("runDate", .string ("Runs/" ++ prevRunId))]]) := by
    unfold handleNewRun
    generalize GetVaccinationNodes graph prevRunId log = r at hgroup hlog
    obtain ⟨⟨prevRun, e⟩, log1⟩ := r
    simp only at hgroup hlog
    simp only [hgroup, hlog]
  refine ⟨hrun, ?_⟩
  intro env hcur hprev vaccinationsData hstatus
  unfold saveVaccinationsData
  rw [hstatus, hcur, hprev, hrun]

/-! ## Theorems: saveVaccinationsData -/

/-- C7, counterexample.  The bulk insert of the new country fails, so `HandleNewCountries`,
called after the two queries of `handleNewRun`, returns an error; `saveVaccinationsData`
nevertheless goes on to `HandleNewEdges` for the unchanged countries (the last two driver
calls of its log) and returns `nil`. -/
theorem saveVaccinationsData_continues_after_failure :
    HandleNewCountries (exampleStore [] (some "write failed")) "2021-02-02"
        [newNode "2021-02-02" ⟨"ISR", ⟨2021, 2, 2⟩, 150⟩]
        [DbCall.query
          vaccinationNodesQuery
          [("runDate", .string "Runs/2021-02-01")],
         DbCall.query
          runInsertQuery
          [("key", .string "2021-02-02"), ("createdAt", .int64 1612224000)]] =
      some (some "failed creating vaccinations documents: write failed",
        [DbCall.query
          vaccinationNodesQuery
          [("runDate", .string "Runs/2021-02-01")],
         DbCall.query
          runInsertQuery
          [("key", .string "2021-02-02"), ("createdAt", .int64 1612224000)],
         DbCall.collection "Vaccinations",
         DbCall.createDocuments "Vaccinations" [newNode "2021-02-02" ⟨"ISR", ⟨2021, 2, 2⟩, 150⟩]]) ∧
    saveVaccinationsData exampleEnv (exampleStore [] (some "write failed")) [] =
      some (none,
        [DbCall.query
          vaccinationNodesQuery
          [("runDate", .string "Runs/2021-02-01")],
         DbCall.query
          runInsertQuery
          [("key", .string "2021-02-02"), ("createdAt", .int64 1612224000)],
         DbCall.collection "Vaccinations",
         DbCall.createDocuments "Vaccinations" [newNode "2021-02-02" ⟨"ISR", ⟨2021, 2, 2⟩, 150⟩],
         DbCall.collection "VaccinationsEdges",
         DbCall.importDocuments "VaccinationsEdges" []]) := by
  refine ⟨?_, ?_⟩
  · rfl
  · rfl

/-- C7, amended.  Whatever `HandleNewCountries` (new countries) and `HandleNewEdges`
(unchanged countries) return, an error included, `saveVaccinationsData` goes on with the
remaining stages and does not return their errors: its result is the result of
`HandleChangedCountries`, run after both, when the `changed` bucket is not empty, and `nil`
otherwise. -/
theorem saveVaccinationsData_stage_errors_not_returned (env : Env) (graph : ArangoDB)
    (log log1 log2 log3 : List DbCall) (vaccinationsData : GoMap VaccinationStatus)
    (prevRunNodes : GoMap Document) (vaccinationNodes : Buckets) (errNew errOld : Option String)
    (hstatus : GetVaccinationStatus env.apiMetadata env.response env.unmarshal env.rangeFeed =
      some (vaccinationsData, none))
    (hrun : handleNewRun graph env.currentRun env.prevRunId log = some ((prevRunNodes, none), log1))
    (hcompare : compareToPrevRunNodes (env.rangeStatus vaccinationsData) env.currentRun
      prevRunNodes = some (vaccinationNodes, none))
    (hnew : HandleNewCountries graph env.currentRun vaccinationNodes.new log1 =
      some (errNew, log2))
    (hold : HandleNewEdges graph env.currentRun vaccinationNodes.old log2 = some (errOld, log3)) :
    saveVaccinationsData env graph log =
      if vaccinationNodes.changed.length > 0 then
        HandleChangedCountries graph env.currentRun vaccinationNodes.changed log3
      else some (none, log3) := by
  unfold saveVaccinationsData
  rw [hstatus]
  dsimp only
  rw [hrun]
  dsimp only
  rw [hcompare]
  dsimp only
  unfold persistStages
  rw [hnew]
  dsimp only
  rw [hold]
  dsimp only
  split
  · generalize HandleChangedCountries graph env.currentRun vaccinationNodes.changed log3 = r
    rcases r with _ | ⟨_ | e, l⟩ <;> rfl
  · rfl

/-- C7, instance: the store rejects the bulk insert of the new country. -/
theorem saveVaccinationsData_stage_errors_not_returned_witness :
    HandleNewCountries (exampleStore [] (some "write failed")) exampleEnv.currentRun
        [newNode "2021-02-02" ⟨"ISR", ⟨2021, 2, 2⟩, 150⟩]
        [DbCall.query
          vaccinationNodesQuery
          [("runDate", .string "Runs/2021-02-01")],
         DbCall.query
          runInsertQuery
          [("key", .string "2021-02-02"), ("createdAt", .int64 1612224000)]] =
      some (some "failed creating vaccinations documents: write failed",
        [DbCall.query
          vaccinationNodesQuery
          [("runDate", .string "Runs/2021-02-01")],
         DbCall.query
          runInsertQuery
          [("key", .string "2021-02-02"), ("createdAt", .int64 1612224000)],
         DbCall.collection "Vaccinations",
         DbCall.createDocuments "Vaccinations" [newNode "2021-02-02" ⟨"ISR", ⟨2021, 2, 2⟩, 150⟩]]) ∧
    saveVaccinationsData exampleEnv (exampleStore [] (some "write failed")) [] =
      if (⟨[newNode "2021-02-02" ⟨"ISR", ⟨2021, 2, 2⟩, 150⟩], [], []⟩ : Buckets).changed.length > 0 then
        HandleChangedCountries (exampleStore [] (some "write failed")) exampleEnv.currentRun
          (⟨[newNode "2021-02-02" ⟨"ISR", ⟨2021, 2, 2⟩, 150⟩], [], []⟩ : Buckets).changed
          [DbCall.query
            vaccinationNodesQuery
            [("runDate", .string "Runs/2021-02-01")],
           DbCall.query
            runInsertQuery
            [("key", .string "2021-02-02"), ("createdAt", .int64 1612224000)],
           DbCall.collection "Vaccinations",
           DbCall.createDocuments "Vaccinations" [newNode "2021-02-02" ⟨"ISR", ⟨2021, 2, 2⟩, 150⟩],
           DbCall.collection "VaccinationsEdges",
           DbCall.importDocuments "VaccinationsEdges" []]
      else some (none,
          [DbCall.query
            vaccinationNodesQuery
            [("runDate", .string "Runs/2021-02-01")],
           DbCall.query
            runInsertQuery
            [("key", .string "2021-02-02"), ("createdAt", .int64 1612224000)],
           DbCall.collection "Vaccinations",
           DbCall.createDocuments "Vaccinations" [newNode "2021-02-02" ⟨"ISR", ⟨2021, 2, 2⟩, 150⟩],
           DbCall.collection "VaccinationsEdges",
           DbCall.importDocuments "VaccinationsEdges" []]) :=
  ⟨rfl,
   saveVaccinationsData_stage_errors_not_returned exampleEnv (exampleStore [] (some "write failed"))
    [] _ _ _ [("ISR", ⟨"ISR", ⟨2021, 2, 2⟩, 150⟩)] [] ⟨[newNode "2021-02-02" ⟨"ISR", ⟨2021, 2, 2⟩, 150⟩], [], []⟩
    (some "failed creating vaccinations documents: write failed") none rfl rfl rfl rfl rfl⟩

/-- C4, instance: the previous run holds one node without `CountryCode`. -/
theorem handleNewRun_group_error_witness :
    GroupByKey (GetVaccinationNodes (exampleStore [.ok storedWithoutCountry] none)
        "2021-02-01" []).1.1 "CountryCode" = some ([], some "failed to find CountryCode key") ∧
    handleNewRun (exampleStore [.ok storedWithoutCountry] none) "2021-02-02" "2021-02-01" [] =
      some (([], some "Unknown format of previous run nodes"), [] ++ [DbCall.query
        vaccinationNodesQuery
        [("runDate", .string ("Runs/" ++ "2021-02-01"))]]) :=
  ⟨by decide,
   (handleNewRun_group_error (exampleStore [.ok storedWithoutCountry] none) "2021-02-02"
    "2021-02-01" [] [] "failed to find CountryCode key" (by decide)).1⟩

/-! ## Theorems: Concrete instances -/

theorem StoredFactsNumeric.nil (prev : GoMap Document) : StoredFactsNumeric prev [] := by
  intro entry hentry
  cases hentry

theorem StoredFactsNumeric.cons_absent (prev : GoMap Document) (e : String × VaccinationStatus)
    (rest : GoMap VaccinationStatus) (h : GoMap.get? prev e.1 = none)
    (hrest : StoredFactsNumeric prev rest) : StoredFactsNumeric prev (e :: rest) := by
  intro entry hentry prevNode hget
  rcases List.mem_cons.mp hentry with heq | hmem
  · subst heq
    rw [h] at hget
    cases hget
  · exact hrest entry hmem prevNode hget

theorem StoredFactsNumeric.cons_number (prev : GoMap Document) (e : String × VaccinationStatus)
    (rest : GoMap VaccinationStatus) (node : Document) (f : Float64)
    (h : GoMap.get? prev e.1 = some node)
    (hf : Document.index node "TotalPeopleVaccinated" = .number f)
    (hrest : StoredFactsNumeric prev rest) : StoredFactsNumeric prev (e :: rest) := by
  intro entry hentry prevNode hget
  rcases List.mem_cons.mp hentry with heq | hmem
  · subst heq
    rw [h] at hget
    cases hget
    exact ⟨f, hf⟩
  · exact hrest entry hmem prevNode hget

/-- C5, instance: Israel has a stored fact, the USA is new. -/
theorem compareToPrevRunNodes_new_country_witness :
    ∃ r1 r2 payload,
      compareToPrevRunNodes [("ISR", ⟨"ISR", ⟨2021, 2, 2⟩, 100⟩)] "2021-02-02"
        [("ISR", storedISR)] = some (r1, none) ∧
      compareToPrevRunNodes [] "2021-02-02" [("ISR", storedISR)] = some (r2, none) ∧
      compareToPrevRunNodes
        ([("ISR", ⟨"ISR", ⟨2021, 2, 2⟩, 100⟩)] ++ ("USA", ⟨"USA", ⟨2021, 2, 2⟩, 300⟩) :: [])
        "2021-02-02" [("ISR", storedISR)] =
        some (⟨r1.new ++ payload :: r2.new, r1.old ++ r2.old, r1.changed ++ r2.changed⟩, none) ∧
      GoMap.get? payload "CountryCode" = some (.string "USA") ∧
      GoMap.get? payload "_key" = some (.string ("2021-02-02" ++ "-" ++ "USA")) ∧
      GoMap.get? payload "date" = some (.string "2021-02-02") ∧
      GoMap.get? payload "TotalPeopleVaccinated" =
        some (.int64 (⟨"USA", ⟨2021, 2, 2⟩, 300⟩ : VaccinationStatus).TotalPeopleVaccinated) ∧
      GoMap.get? payload "diff" = none ∧
      GoMap.get? payload "prevAssetId" = none ∧
      (∀ n ∈ r1.new ++ r2.new ++ r1.changed ++ r2.changed,
        GoMap.get? n "CountryCode" ≠ some (.string "USA")) :=
  compareToPrevRunNodes_new_country [("ISR", ⟨"ISR", ⟨2021, 2, 2⟩, 100⟩)] [] "USA"
    ⟨"USA", ⟨2021, 2, 2⟩, 300⟩ "2021-02-02" [("ISR", storedISR)]
    (by decide) (by decide)
    (StoredFactsNumeric.cons_number _ _ _ storedISR ⟨100, 0⟩ rfl rfl
      (StoredFactsNumeric.cons_absent _ _ _ rfl (StoredFactsNumeric.nil _)))
    rfl

/-- C6, instance: Israel's stored count 100 equals the current count, and the value appended
to `old` is the string `"Vaccinations/2021-02-01-ISR"`. -/
theorem compareToPrevRunNodes_unchanged_country_witness :
    ∃ r1 r2,
      compareToPrevRunNodes [] "2021-02-02" [("ISR", storedISR)] = some (r1, none) ∧
      compareToPrevRunNodes [("USA", ⟨"USA", ⟨2021, 2, 2⟩, 300⟩)] "2021-02-02"
        [("ISR", storedISR)] = some (r2, none) ∧
      compareToPrevRunNodes
        ([] ++ ("ISR", ⟨"ISR", ⟨2021, 2, 2⟩, 100⟩) :: [("USA", ⟨"USA", ⟨2021, 2, 2⟩, 300⟩)])
        "2021-02-02" [("ISR", storedISR)] =
        some (⟨r1.new ++ r2.new, r1.old ++ GoValue.string "Vaccinations/2021-02-01-ISR" :: r2.old,
          r1.changed ++ r2.changed⟩, none) ∧
      (∀ id : String, GoMap.get? storedISR "_id" = some (.string id) →
        GoValue.string "Vaccinations/2021-02-01-ISR" = GoValue.string id) :=
  compareToPrevRunNodes_unchanged_country [] [("USA", ⟨"USA", ⟨2021, 2, 2⟩, 300⟩)] "ISR"
    ⟨"ISR", ⟨2021, 2, 2⟩, 100⟩ "2021-02-02" [("ISR", storedISR)] storedISR ⟨100, 0⟩
    (StoredFactsNumeric.cons_number _ _ _ storedISR ⟨100, 0⟩ rfl rfl
      (StoredFactsNumeric.cons_absent _ _ _ rfl (StoredFactsNumeric.nil _)))
    rfl rfl (by decide) (by norm_num [Float64.toRat])

/-- C10, instance: the feed holds Israel and France, the allow-list Israel and the USA. -/
theorem GetVaccinationStatus_keys_witness :
    "ISR" ∈ GoMap.keys [("ISR", (⟨"ISR", ⟨2021, 2, 2⟩, 150⟩ : VaccinationStatus))] ↔
      ((∃ entity ∈ [[("iso_code", JSONValue.string "ISR"), ("data", .composite "[...]")],
                   [("iso_code", .string "FRA"), ("data", .composite "[...]")]],
          GoMap.get? entity exampleEnv.apiMetadata.CountryCodeKey = some (.string "ISR")) ∧
        (exampleEnv.apiMetadata.CountriesFilter = [] ∨
          "ISR" ∈ exampleEnv.apiMetadata.CountriesFilter)) :=
  GetVaccinationStatus_keys exampleEnv.apiMetadata
    [[("iso_code", .string "ISR"), ("data", .composite "[...]")],
     [("iso_code", .string "FRA"), ("data", .composite "[...]")]]
    exampleEnv.unmarshal id [("ISR", ⟨"ISR", ⟨2021, 2, 2⟩, 150⟩)]
    (fun m => List.Perm.refl m) (by decide) "ISR"

/-- C8, instance: Israel's history of two observations in chronological order. -/
theorem GetVaccinationStatus_last_observation_witness :
    ∃ status lastStatus lastStatusDate,
      exampleEnv.unmarshal [("iso_code", .string "ISR"), ("data", .composite "[...]")] =
        .ok status ∧
      status.Data.getLast? = some lastStatus ∧
      timeParse lastStatus.Date = .ok lastStatusDate ∧
      GoMap.get? [("ISR", (⟨"ISR", ⟨2021, 2, 2⟩, 150⟩ : VaccinationStatus))] "ISR" =
        some ⟨"ISR", lastStatusDate, lastStatus.TotalPeopleVaccinated⟩ ∧
      (Chronological status.Data → ∀ o ∈ status.Data, ∃ t, timeParse o.Date = .ok t ∧
        Time.le t lastStatusDate = true) :=
  GetVaccinationStatus_last_observation exampleEnv.apiMetadata
    [[("iso_code", .string "ISR"), ("data", .composite "[...]")],
     [("iso_code", .string "FRA"), ("data", .composite "[...]")]]
    exampleEnv.unmarshal id [("ISR", ⟨"ISR", ⟨2021, 2, 2⟩, 150⟩)]
    [("ISR", [("iso_code", .string "ISR"), ("data", .composite "[...]")]),
     ("FRA", [("iso_code", .string "FRA"), ("data", .composite "[...]")])]
    "ISR" [("iso_code", .string "ISR"), ("data", .composite "[...]")]
    (fun m => List.Perm.refl m) (by decide) (by decide) (by decide) (by decide)

/-- C9, instance: two changed payloads, Israel then the USA, and a store that accepts every
call; the edges imported last are Israel's old fact to Israel's new fact and the USA's old
fact to the USA's new fact, in this order. -/
theorem HandleChangedCountries_fact_edges_witness :
    (∃ (docs : List DocumentMeta) (err : Option String),
      docs = ((exampleStore [] none).db.createDocuments ([] ++ [DbCall.collection "Vaccinations"])
        "Vaccinations" (exampleChanged.map (fun n => GoMap.delete n "prevAssetId"))).1 ∧
      docs.length = exampleChanged.length ∧
      (List.zipWith (fun p node => (⟨p, node.ID, "VaccinationsEdges"⟩ : VaccinationEdge))
        ["Vaccinations/2021-02-01-ISR", "Vaccinations/2021-02-01-USA"] docs).length =
        exampleChanged.length ∧
      HandleChangedCountries (exampleStore [] none) "2021-02-02" exampleChanged [] =
        some (err, [] ++
          [DbCall.collection "Vaccinations",
           DbCall.createDocuments "Vaccinations"
             (exampleChanged.map (fun n => GoMap.delete n "prevAssetId")),
           DbCall.collection "VaccinationsEdges",
           DbCall.importDocuments "VaccinationsEdges"
             (docs.map (fun node => ⟨runVertex "2021-02-02", node.ID, "VaccinationsEdges"⟩)),
           DbCall.collection "VaccinationsEdges",
           DbCall.importDocuments "VaccinationsEdges"
             (List.zipWith (fun p node => ⟨p, node.ID, "VaccinationsEdges"⟩)
               ["Vaccinations/2021-02-01-ISR", "Vaccinations/2021-02-01-USA"] docs)])) ∧
    (HandleChangedCountries (exampleStore [] none) "2021-02-02" exampleChanged []).map
        (fun r => (r.1, r.2.getLast?)) =
      some (none, some (DbCall.importDocuments "VaccinationsEdges"
        [⟨"Vaccinations/2021-02-01-ISR", "Vaccinations/2021-02-02-ISR", "VaccinationsEdges"⟩,
         ⟨"Vaccinations/2021-02-01-USA", "Vaccinations/2021-02-02-USA",
           "VaccinationsEdges"⟩])) :=
  ⟨HandleChangedCountries_fact_edges (exampleStore [] none) "2021-02-02" exampleChanged []
    ["2021-02-02-ISR", "2021-02-02-USA"]
    ["Vaccinations/2021-02-01-ISR", "Vaccinations/2021-02-01-USA"] rfl rfl (by decide)
    (fun _ _ => rfl)
    (fun _ _ docs => ⟨rfl, by simp [exampleStore, exampleMeta, Function.comp]⟩)
    (fun _ _ _ => rfl),
   by decide⟩

end VaccinationsGraph
